import Mathlib

/-!
Shallow embedding of the SmartRemux job engine (`src/video_remuxer_gui.py`).

The embedding models the two-phase engine of the source file:
  * `scan_single_file` — the per-file metadata scanner (parameterised by the
    outcomes of the external ffprobe invocations),
  * `build_ffmpeg_command` — mux command construction,
  * `execute_ffmpeg_process` / the subprocess monitor loop,
  * `handle_original_file` — the file-disposition handler,
  * `remux_videos_worker` — the sequential job controller.

External effects (child processes, the filesystem, the three threading.Event
flags written by the GUI thread) are made explicit:
  * probe and mux subprocess behaviour is an oracle (`ProbeOut`, `MuxBeh`);
  * the three control flags (`pause_event` — set means running, `cancel_event`,
    `skip_event`) are a `SigState` threaded through the controller.  The
    environment (the GUI thread) acts through a finite list of `EnvStep`s, one
    consumed at each checkpoint read of the loops; when the list is exhausted
    the defaults apply (running, no cancel request, no new skip request).
    `cancel_event` is only ever set mid-job (the source clears it only when a
    new job starts), so an environment step can set but not clear it;
    `skip_event` is cleared by the controller itself, exactly where the source
    calls `skip_event.clear()`.
  * the filesystem is modelled as the set (`List String`, no duplicates are
    ever inserted) of candidate output paths currently on disk, plus a trace of
    effects (`FsEffect`) for process spawns, terminations, moves and deletes of
    original files, and timestamp copies.
  * loops take explicit fuel; running out of fuel sets a `ranOut` flag on the
    world, which no operation ever clears.

String literals reproduce the source's log messages, except that quote
characters inside messages and interpolated exception/debug details are
omitted; no claim depends on them.  Python number parsing (`int(s)`,
`float(s)`) is modelled on the usual grammar (sign, digits, decimal point,
exponent, inf/nan) without the underscore-separator extension; `str(num/den)`
is modelled as an exact decimal expansion truncated at 17 fractional digits —
no claim depends on float-repr rounding.
-/

namespace SmartRemux

/-! ## Python string and path helpers -/

/-- Python `str.strip()` (ASCII whitespace). -/
def pyStrip (s : String) : String :=
  ⟨((s.data.dropWhile Char.isWhitespace).reverse.dropWhile Char.isWhitespace).reverse⟩

/-- Numeric value of a digit string. -/
def digitsVal (cs : List Char) : Nat :=
  cs.foldl (fun a c => a * 10 + (c.toNat - 48)) 0

/-- Split a character list at every occurrence of `c` (Python
`str.split(sep)` with a one-character separator). -/
def splitChar (c : Char) : List Char → List (List Char)
  | [] => [[]]
  | x :: xs =>
    if x = c then [] :: splitChar c xs
    else
      match splitChar c xs with
      | h :: t => (x :: h) :: t
      | [] => [[x]]

/-- Python `s.split(c)` for a one-character separator. -/
def pySplit (s : String) (c : Char) : List String :=
  (splitChar c s.data).map (fun cs => ⟨cs⟩)

/-- Python `c in s` for a one-character needle. -/
def strContainsChar (s : String) (c : Char) : Bool :=
  s.data.contains c

/-- Python `int(s)`: optional surrounding whitespace, optional sign, digits. -/
def pyInt? (s : String) : Option Int :=
  let cs := (pyStrip s).data
  match cs with
  | '+' :: rest =>
    if rest ≠ [] ∧ rest.all Char.isDigit then some (digitsVal rest) else none
  | '-' :: rest =>
    if rest ≠ [] ∧ rest.all Char.isDigit then some (-(digitsVal rest : Int)) else none
  | _ =>
    if cs ≠ [] ∧ cs.all Char.isDigit then some (digitsVal cs) else none

/-- Mantissa of a float literal: `digits+ [. digits*]` or `. digits+`.
Returns the remaining characters when the mantissa is well-formed. -/
def afterMantissa (cs : List Char) : Option (List Char) :=
  let ds := cs.takeWhile Char.isDigit
  let r1 := cs.dropWhile Char.isDigit
  match r1 with
  | '.' :: r2 =>
    let fs := r2.takeWhile Char.isDigit
    let r3 := r2.dropWhile Char.isDigit
    if ds.length + fs.length > 0 then some r3 else none
  | _ => if ds.length > 0 then some r1 else none

/-- Optional exponent part of a float literal. -/
def afterExp (cs : List Char) : Option (List Char) :=
  match cs with
  | [] => some []
  | c :: r =>
    if c = 'e' ∨ c = 'E' then
      let r2 := match r with
        | '+' :: t => t
        | '-' :: t => t
        | _ => r
      let ds := r2.takeWhile Char.isDigit
      if ds.length > 0 then some (r2.dropWhile Char.isDigit) else none
    else some (c :: r)

/-- Whether Python `float(s)` succeeds. -/
def pyFloatParses (s : String) : Bool :=
  let cs0 := (pyStrip s).data
  let cs := match cs0 with
    | '+' :: r => r
    | '-' :: r => r
    | _ => cs0
  let low := cs.map Char.toLower
  if low = "inf".data ∨ low = "infinity".data ∨ low = "nan".data then true
  else
    match afterMantissa cs with
    | some r =>
      match afterExp r with
      | some [] => true
      | _ => false
    | none => false

/-- Value of a finite Python float literal, as an exact rational
(`inf`/`nan`/ill-formed inputs give 0; no claim uses those). -/
def pyFloatVal (s : String) : Rat :=
  let cs0 := (pyStrip s).data
  let (sgn, cs) : Rat × List Char := match cs0 with
    | '+' :: r => (1, r)
    | '-' :: r => (-1, r)
    | _ => (1, cs0)
  let ds := cs.takeWhile Char.isDigit
  let r1 := cs.dropWhile Char.isDigit
  let (fs, r2) : List Char × List Char := match r1 with
    | '.' :: t => (t.takeWhile Char.isDigit, t.dropWhile Char.isDigit)
    | _ => ([], r1)
  let e : Int := match r2 with
    | c :: t =>
      if c = 'e' ∨ c = 'E' then
        match t with
        | '+' :: u => (digitsVal (u.takeWhile Char.isDigit) : Int)
        | '-' :: u => -(digitsVal (u.takeWhile Char.isDigit) : Int)
        | _ => (digitsVal (t.takeWhile Char.isDigit) : Int)
      else 0
    | [] => 0
  let mant : Rat := (digitsVal (ds ++ fs) : Rat) / ((10 : Rat) ^ fs.length)
  let scaled : Rat := if 0 ≤ e then mant * (10 : Rat) ^ e.toNat else mant / (10 : Rat) ^ (-e).toNat
  sgn * scaled

/-- Fractional decimal digits of `rem / den`, at most `fuel` of them,
stopping early when the expansion terminates. -/
def decDigits (rem den : Nat) : Nat → List Char
  | 0 => []
  | fuel + 1 =>
    let rem10 := rem * 10
    Char.ofNat (48 + rem10 / den) ::
      (if rem10 % den = 0 then [] else decDigits (rem10 % den) den fuel)

/-- Models Python `str(num / den)` (true float division): a signed decimal
expansion with at least one fractional digit, truncated at 17 places. -/
def pyDivStr (n d : Int) : String :=
  let q : Rat := (n : Rat) / (d : Rat)
  let sgn := if q < 0 then "-" else ""
  let a := |q|
  let ip := a.floor.toNat
  let frac : List Char :=
    if a.num.toNat % a.den = 0 then ['0'] else decDigits (a.num.toNat % a.den) a.den 17
  sgn ++ toString ip ++ "." ++ ⟨frac⟩

/-- Index of the last occurrence of `c` in `cs`. -/
def lastIdxOf (c : Char) (cs : List Char) : Option Nat :=
  match cs.reverse.findIdx? (fun x => x = c) with
  | none => none
  | some k => some (cs.length - 1 - k)

/-- Python `os.path.basename` (posix): everything after the last slash. -/
def basename (p : String) : String :=
  ⟨((p.data.reverse.takeWhile (fun c => c ≠ '/')).reverse)⟩

/-- Python `os.path.dirname` (posix): everything up to the last slash, with
trailing slashes stripped unless the head is all slashes. -/
def dirname (p : String) : String :=
  let cs := p.data
  let head := (cs.reverse.dropWhile (fun c => c ≠ '/')).reverse
  if head ≠ [] ∧ head.any (fun c => c ≠ '/') then
    ⟨(head.reverse.dropWhile (fun c => c = '/')).reverse⟩
  else ⟨head⟩

/-- Python `os.path.join` (posix, two components). -/
def joinPath (a b : String) : String :=
  if b.data.head? = some '/' then b
  else if a = "" ∨ a.data.getLast? = some '/' then a ++ b
  else a ++ "/" ++ b

/-- Python `os.path.splitext(p)[0]` (posix): drop the extension, where an
extension is a dot-run-free suffix after a dot that does not begin the
basename. -/
def splitextRoot (p : String) : String :=
  let cs := p.data
  let sep : Int := match lastIdxOf '/' cs with
    | some i => (i : Int)
    | none => -1
  let dot : Int := match lastIdxOf '.' cs with
    | some i => (i : Int)
    | none => -1
  if sep < dot then
    let between := ((cs.drop (sep + 1).toNat).take (dot - sep - 1).toNat)
    if between.any (fun c => c ≠ '.') then ⟨cs.take dot.toNat⟩ else p
  else p

/-- Naive substring test on character lists. -/
def substrB (pat : List Char) : List Char → Bool
  | [] => pat.isEmpty
  | c :: r => pat.isPrefixOf (c :: r) || substrB pat r

/-! ## Data model -/

/-- File-disposition policy (`FILE_ACTION_MOVE` / `KEEP` / `DELETE`). -/
inductive FileAction where
  | move
  | keep
  | delete
deriving DecidableEq, Repr

/-- Events placed on `process_queue`.  The derived percent fields of
`PROGRESS`/`SCAN_PROGRESS` (always `current / total * 100`) are not repeated
in the payload. -/
inductive Event where
  | log (msg : String)
  | status (msg : String)
  | progress (current total : Nat)
  | currentFile (name : String) (duration : Rat)
  | skipButtonReset
  | finished (remuxed skipped : Nat)
deriving DecidableEq, Repr

/-- Result dict built by `scan_single_file` (`{'valid': True, 'fps': None,
'duration': 0}` plus the optional audio keys).  `soundTracks`/`langs` model
the `audio_tracks`/`languages` keys. -/
structure ScanResult where
  valid : Bool := true
  fps : Option String := none
  duration : Rat := 0
  soundTracks : Option Nat := none
  langs : Option (List String) := none
deriving DecidableEq, Repr

/-- The settings dict assembled by `start_remuxing_process`.  `output_dir` is
`""` when no output directory is selected (falsy in the source).
`includeSound` models the `include_audio` key. -/
structure Settings where
  files : List String
  output_dir : String
  includeSound : Bool
  file_action : FileAction
  use_timescale : Bool
  scan_results : List (String × ScanResult)
  output_format : String
  preserve_timestamps : Bool
  overwrite_existing : Bool
deriving Repr

/-- `settings["scan_results"].get(path, ...)` — dict lookup. -/
def lookupScan : List (String × ScanResult) → String → Option ScanResult
  | [], _ => none
  | (k, v) :: rest, p => if k = p then some v else lookupScan rest p

/-! ## Probe client oracle and the metadata scanner -/

/-- Outcome of one external ffprobe invocation (`subprocess.run`). -/
inductive ProbeOut where
  | ok (stdout : String)
  | err (rc : Int) (stdout : String)
  | timeout
  | exn
deriving DecidableEq, Repr

/-- The three independent probe invocations `scan_single_file` can make. -/
structure ProbeEnv where
  fps : ProbeOut
  dur : ProbeOut
  sound : ProbeOut
deriving Repr

/-- One audio-stream row parsed by `get_audio_track_info` (the model keeps
`index` as the parsed integer; `codec`, `channels`, `language` as text). -/
structure SoundTrack where
  index : Int
  codec : String
  channels : String
  language : String
deriving DecidableEq, Repr

/-- CSV-row parsing inside `get_audio_track_info`; `none` models the
`ValueError` of `int(index)`, which the surrounding `except` turns into `[]`. -/
def parseTrackRows : List String → Option (List SoundTrack)
  | [] => some []
  | line :: rest =>
    if line = "" then parseTrackRows rest
    else
      let parts := pySplit line ','
      if parts.length ≥ 3 then
        match pyInt? (parts.getD 0 "") with
        | none => none
        | some i =>
          let lang := if parts.length > 3 ∧ parts.getD 3 "" ≠ "" then parts.getD 3 "" else "und"
          match parseTrackRows rest with
          | none => none
          | some ts =>
            some ({ index := i, codec := parts.getD 1 "", channels := parts.getD 2 "",
                    language := lang } :: ts)
      else parseTrackRows rest

/-- `get_audio_track_info`: list the audio streams of a file, returning `[]`
(with a warning log) on any failure. -/
def getSoundTrackInfo (po : ProbeOut) (fileName : String) : List SoundTrack × List Event :=
  match po with
  | .ok out =>
    match parseTrackRows (pySplit (pyStrip out) '\n') with
    | some ts => (ts, [])
    | none => ([], [.log s!"Warning: Error getting audio tracks for {fileName}"])
  | .err _ _ => ([], [.log s!"Warning: ffprobe failed for audio tracks in {fileName}"])
  | .timeout => ([], [.log s!"Warning: Timeout getting audio tracks for {fileName}"])
  | .exn => ([], [.log s!"Warning: Error getting audio tracks for {fileName}"])

/-- Exception escaping the probing block of `scan_single_file`:
`subprocess.TimeoutExpired` or any other `Exception` (which includes the
`CalledProcessError` of the `check=True` fps call and the `ValueError` of
`map(int, fps_fraction.split('/'))`). -/
inductive ScanExn where
  | timeoutExpired
  | otherExn
deriving DecidableEq, Repr

/-- The frame-rate parsing block of `scan_single_file`: the `fps` value it
leaves in the result dict, and the exception it raises, if any (the
`ValueError` of `map(int, fps_fraction.split('/'))` when a slash-containing
string does not have exactly two integer parts). -/
def parseFpsField (f : String) : Option String × Option ScanExn :=
  if strContainsChar f '/' ∧ f ≠ "0/0" then
    match pySplit f '/' with
    | [a, b] =>
      match pyInt? a, pyInt? b with
      | some num, some den =>
        if den ≠ 0 then (some (pyDivStr num den), none) else (none, none)
      | _, _ => (none, some .otherExn)
    | _ => (none, some .otherExn)
  else if f ≠ "" ∧ f ≠ "0/0" then
    (if pyFloatParses f then some f else none, none)
  else (none, none)

/-- The probing block shared verbatim by both branches of `scan_single_file`
(the source duplicates it; only the exception handlers differ).  Returns the
fields accumulated so far, the events emitted so far, and the exception that
escaped, if any. -/
def scanCore (includeSound : Bool) (fileName : String) (pe : ProbeEnv) :
    ScanResult × List Event × Option ScanExn :=
  let r0 : ScanResult := {}
  match pe.fps with
  | .timeout => (r0, [], some .timeoutExpired)
  | .err _ _ => (r0, [], some .otherExn)
  | .exn => (r0, [], some .otherExn)
  | .ok out =>
    let fpsFraction := pyStrip out
    match parseFpsField fpsFraction with
    | (fo, some e) => ({ r0 with fps := fo }, [], some e)
    | (fo, none) =>
      let r1 : ScanResult := { r0 with fps := fo }
      match pe.dur with
      | .timeout => (r1, [], some .timeoutExpired)
      | .exn => (r1, [], some .otherExn)
      | .ok dout =>
        let r2 := if pyFloatParses (pyStrip dout) then
            { r1 with duration := pyFloatVal (pyStrip dout) }
          else r1
        if includeSound then
          let (ts, evs) := getSoundTrackInfo pe.sound fileName
          let r3 := { r2 with soundTracks := some ts.length }
          let r4 := if ts ≠ [] then
              { r3 with langs := some ((ts.filter (fun t => t.language ≠ "und")).map
                  (fun t => t.language)) }
            else r3
          (r4, evs, none)
        else (r2, [], none)
      | .err _ _ =>
        -- nonzero exit: the duration branch is skipped entirely
        if includeSound then
          let (ts, evs) := getSoundTrackInfo pe.sound fileName
          let r3 := { r1 with soundTracks := some ts.length }
          let r4 := if ts ≠ [] then
              { r3 with langs := some ((ts.filter (fun t => t.language ≠ "und")).map
                  (fun t => t.language)) }
            else r3
          (r4, evs, none)
        else (r1, [], none)

/-- `scan_single_file`: probe one file.  With validation disabled a probe
failure only logs a warning; with validation enabled it also sets
`valid = False` and logs the validation-failure line. -/
def scan_single_file (validateFiles includeSound : Bool) (filePath : String)
    (pe : ProbeEnv) : ScanResult × List Event :=
  let fileName := basename filePath
  let (r, evs, exn) := scanCore includeSound fileName pe
  if validateFiles = false then
    match exn with
    | none => (r, evs)
    | some .timeoutExpired => (r, evs ++ [.log s!"Warning: Timeout scanning: {fileName}"])
    | some .otherExn => (r, evs ++ [.log s!"Warning: Error scanning {fileName}"])
  else
    let rr : ScanResult × List Event := match exn with
      | none => (r, evs)
      | some .timeoutExpired =>
        ({ r with valid := false }, evs ++ [.log s!"Warning: Timeout scanning: {fileName}"])
      | some .otherExn =>
        ({ r with valid := false }, evs ++ [.log s!"Warning: Error scanning {fileName}"])
    let (r2, evs2) := rr
    if r2.valid = false then
      (r2, evs2 ++ [.log s!"Validation failed for {fileName}"])
    else (r2, evs2)

/-! ## Mux command construction -/

/-- Output of `build_ffmpeg_command`: the argv list, the target path, and the
log events emitted while constructing it. -/
structure BuildOut where
  command : List String
  outPath : String
  events : List Event
deriving Repr

/-- Target output path: `output_dir or dirname(file)` joined with the
basename's stem plus the output format. -/
def outputPathFor (settings : Settings) (p : String) : String :=
  let outDir := if settings.output_dir = "" then dirname p else settings.output_dir
  joinPath outDir (splitextRoot (basename p) ++ settings.output_format)

/-- The command prefix before the timescale option: the copy-video part
followed by the audio handling part. -/
def baseCommand (ffmpegPath videoFilePath : String) (settings : Settings) : List String :=
  [ffmpegPath, "-y", "-i", videoFilePath, "-c:v", "copy"] ++
    (if settings.includeSound then ["-map", "0:v", "-map", "0:a", "-c:a", "copy"]
     else ["-an"])

/-- `build_ffmpeg_command`. -/
def build_ffmpeg_command (ffmpegPath : String) (videoFilePath : String)
    (settings : Settings) : BuildOut :=
  let fileName := basename videoFilePath
  let outPath := outputPathFor settings videoFilePath
  let cmd1 := baseCommand ffmpegPath videoFilePath settings
  if settings.use_timescale then
    let timescale : Option String := ((lookupScan settings.scan_results videoFilePath).bind
      (fun r => r.fps))
    -- Python truthiness: `if not timescale` fires on None and on ""
    let evs1 : List Event :=
      if timescale = none ∨ timescale = some "" then
        [.log s!"Warning: No FPS found for {fileName}, timescale option skipped."]
      else []
    match timescale with
    | some ts =>
      if ts ≠ "" then
        if pyFloatParses ts then
          ⟨cmd1 ++ ["-video_track_timescale", ts] ++ [outPath], outPath, evs1⟩
        else
          ⟨cmd1 ++ [outPath], outPath,
            evs1 ++ [.log s!"Warning: Invalid timescale {ts}, skipping option."]⟩
      else ⟨cmd1 ++ [outPath], outPath, evs1⟩
    | none => ⟨cmd1 ++ [outPath], outPath, evs1⟩
  else ⟨cmd1 ++ [outPath], outPath, []⟩

/-! ## Control signals and the environment -/

/-- Snapshot of the three `threading.Event` flags.  `pauseSet` is
`pause_event.is_set()` — true means running (the source sets it by default). -/
structure SigState where
  pauseSet : Bool := true
  cancel : Bool := false
  skip : Bool := false
deriving DecidableEq, Repr

/-- One environment (GUI-thread) action, observed at a checkpoint read:
a new value for `pause_event`, and whether cancel / skip have been requested
since the previous read.  Cancel is set-only during a job (the source clears
`cancel_event` only when a new job starts); skip accumulates until the
controller clears it. -/
structure EnvStep where
  pauseSet : Bool := true
  cancelReq : Bool := false
  skipReq : Bool := false
deriving DecidableEq, Repr

/-- Apply one environment action to the flag state. -/
def applyEnv (sig : SigState) (e : EnvStep) : SigState :=
  { pauseSet := e.pauseSet,
    cancel := sig.cancel || e.cancelReq,
    skip := sig.skip || e.skipReq }

/-- Consume one environment action (at a checkpoint read).  When the trace is
exhausted the defaults apply: the job is left running and no further cancel or
skip requests arrive. -/
def stepSig (sig : SigState) : List EnvStep → SigState × List EnvStep
  | [] => ({ sig with pauseSet := true }, [])
  | e :: rest => (applyEnv sig e, rest)

/-! ## The world: filesystem effects and the event queue -/

/-- Externally visible filesystem / process effects, in reverse order. -/
inductive FsEffect where
  | spawn (command : List String)
  | terminate
  | removeFile (p : String)
  | moveFile (src dst : String)
  | deleteFile (p : String)
  | utime (src dst : String)
deriving DecidableEq, Repr

/-- The world threaded through the controller: the set of candidate output
paths currently on disk, the event queue (reverse order), the effect trace
(reverse order), the number of mux subprocesses spawned, and the
fuel-exhaustion marker (never cleared once set). -/
structure World where
  disk : List String := []
  revEvents : List Event := []
  effects : List FsEffect := []
  spawned : Nat := 0
  ranOut : Bool := false
deriving DecidableEq, Repr

/-- Put one event on the queue. -/
def emit (w : World) (e : Event) : World :=
  { w with revEvents := e :: w.revEvents }

/-- Put several events on the queue, in order. -/
def emits (w : World) (es : List Event) : World :=
  { w with revEvents := es.reverse ++ w.revEvents }

/-- Record an effect. -/
def addEffect (w : World) (e : FsEffect) : World :=
  { w with effects := e :: w.effects }

/-- `if os.path.exists(p): os.remove(p)` on an output path. -/
def removeIfExists (w : World) (p : String) : World :=
  if p ∈ w.disk then
    { w with disk := w.disk.filter (fun q => q ≠ p),
             effects := .removeFile p :: w.effects }
  else w

/-! ## File disposition (`handle_original_file`) -/

/-- `handle_original_file`: apply the file-action policy to the original.
The move/delete effects themselves are recorded in the effect trace; the
source wraps them in try/except, and the model treats them as succeeding
(disposition I/O failures only produce a warning log in the source and no
claim depends on them). -/
def handle_original_file (debugMode : Bool) (fileName : String) (_outputFilePath : String)
    (settings : Settings) (w : World) : World :=
  match settings.file_action with
  | .move =>
    match settings.files.find? (fun p => basename p = fileName) with
    | some fp =>
      let sourceDir := dirname fp
      if sourceDir ≠ "" then
        let sub := joinPath sourceDir "Remuxed"
        let w := addEffect w (.moveFile (joinPath sourceDir fileName) (joinPath sub fileName))
        if debugMode then emit w (.log "   -> [DEBUG] Original moved to Remuxed folder") else w
      else emit w (.log s!"   -> WARNING: Could not find source directory for {fileName}")
    | none => emit w (.log s!"   -> WARNING: Could not find source directory for {fileName}")
  | .delete =>
    match settings.files.find? (fun p => basename p = fileName) with
    | some fp =>
      let sourceDir := dirname fp
      if sourceDir ≠ "" then
        let w := addEffect w (.deleteFile (joinPath sourceDir fileName))
        if debugMode then emit w (.log "   -> [DEBUG] Original file deleted") else w
      else emit w (.log s!"   -> WARNING: Could not find source directory for {fileName}")
    | none => emit w (.log s!"   -> WARNING: Could not find source directory for {fileName}")
  | .keep => w

/-- `preserve_file_timestamps`: copy atime/mtime; `ok` is the oracle for the
`os.stat`/`os.utime` pair succeeding. -/
def preserve_file_timestamps (sourceFile targetFile : String) (ok : Bool) (w : World) :
    Bool × World :=
  if ok then (true, addEffect w (.utime sourceFile targetFile))
  else (false, emit w (.log "Warning: Failed to preserve timestamps"))

/-! ## Mux subprocess oracle and the monitor loop -/

/-- Behaviour of one external mux (ffmpeg) invocation: whether `Popen`
succeeds, the combined-output lines the monitor will read, the exit code,
whether the process creates the output file on disk, and whether the
timestamp-preservation calls succeed. -/
structure MuxBeh where
  spawnOk : Bool := true
  outputLines : List String := []
  returncode : Int := 0
  writesOutput : Bool := true
  utimeOk : Bool := true
deriving Repr

/-- Result classification of `execute_ffmpeg_process`. -/
inductive ExecResult where
  | completed
  | skipped
  | error
  | cancelled
deriving DecidableEq, Repr

/-- State returned by the monitor / executor. -/
structure ExecOut where
  result : ExecResult
  sig : SigState
  env : List EnvStep
  world : World
deriving Repr

/-- The monitor's skip branch: clear the skip flag, terminate and kill the
process, delete any partial output, release the handle, return `skipped`. -/
def muxExitSkip (fileName outPath : String) (sig : SigState) (env : List EnvStep)
    (w : World) : ExecOut :=
  let sig := { sig with skip := false }
  let w := emit w (.log s!"[SKIP] Skipping {fileName} - moving to next file")
  let w := emit w .skipButtonReset
  let w := addEffect w .terminate
  let w := removeIfExists w outPath
  ⟨.skipped, sig, env, w⟩

/-- The monitor's cancel branch: terminate (with a grace period, then kill),
delete any partial output, release the handle, return `cancelled`. -/
def muxExitCancel (outPath : String) (sig : SigState) (env : List EnvStep)
    (w : World) : ExecOut :=
  let w := addEffect w .terminate
  let w := removeIfExists w outPath
  ⟨.cancelled, sig, env, w⟩

/-- The pause wait inside the monitor loop: sleep while paused with neither
cancel nor skip pending; on wake, cancel wins over skip, otherwise the loop
resumes.  `.skipped` here means control returns to the top of the monitor
loop where the skip branch fires. -/
inductive WaitRes where
  | resumed
  | cancelled
  | skipped
deriving DecidableEq, Repr

/-- The `while not pause and not cancel and not skip: sleep` wait of
`execute_ffmpeg_process`, consuming one environment action per sleep. -/
def muxPausedWait (fuel : Nat) (sig : SigState) (env : List EnvStep) (w : World) :
    WaitRes × SigState × List EnvStep × World :=
  match fuel with
  | 0 => (.resumed, sig, env, { w with ranOut := true })
  | fuel + 1 =>
    if !sig.pauseSet && !sig.cancel && !sig.skip then
      match env with
      | [] => (.resumed, { sig with pauseSet := true }, [], w)
      | e :: rest => muxPausedWait fuel (applyEnv sig e) rest w
    else
      if sig.cancel then (.cancelled, sig, env, w)
      else if sig.skip then (.skipped, sig, env, w)
      else (.resumed, sig, env, w)

/-- The code after the monitor loop breaks: wait for the exit code, release
the handle, re-check cancel, then classify by exit code; on success,
optionally preserve timestamps and run the file disposition. -/
def muxExitNatural (debugMode : Bool) (fileName outPath sourcePath : String)
    (settings : Settings) (beh : MuxBeh) (sig : SigState) (env : List EnvStep)
    (w : World) : ExecOut :=
  -- signals can still change while process.wait() blocks
  let (sig, env) := stepSig sig env
  let w := emit w .skipButtonReset
  if sig.cancel then
    let w := removeIfExists w outPath
    ⟨.cancelled, sig, env, w⟩
  else if beh.returncode = 0 then
    let w := emit w (.log "   -> Success")
    let w :=
      if settings.preserve_timestamps then
        let (ok, w) := preserve_file_timestamps sourcePath outPath beh.utimeOk w
        if ok then (if debugMode then emit w (.log "   -> [DEBUG] Timestamps preserved") else w)
        else emit w (.log "   -> WARNING: Failed to preserve timestamps")
      else w
    let w := handle_original_file debugMode fileName outPath settings w
    ⟨.completed, sig, env, w⟩
  else
    let rc := beh.returncode
    ⟨.error, sig, env, emit w (.log s!"   -> ERROR: Failed remuxing {fileName}. Return code: {rc}")⟩

/-- Keywords whose presence makes the monitor log an ffmpeg output line in
debug mode. -/
def ffmpegKeywords : List String := ["time=", "frame=", "size=", "fps=", "bitrate="]

/-- Whether a stripped output line contains one of the progress keywords. -/
def lineHasKw (l : String) : Bool :=
  ffmpegKeywords.any (fun k => substrB k.data l.data)

/-- The monitor loop of `execute_ffmpeg_process`: each iteration observes the
flags (one environment action), services skip, then cancel, then pause, and
otherwise reads one line of combined output; when the output is exhausted the
process has exited and the loop breaks to `muxExitNatural`. -/
def muxMonitor (debugMode : Bool) (fuel : Nat) (fileName outPath sourcePath : String)
    (settings : Settings) (beh : MuxBeh) (lines : List String) (sig : SigState)
    (env : List EnvStep) (w : World) : ExecOut :=
  match fuel with
  | 0 => ⟨.error, sig, env, { w with ranOut := true }⟩
  | fuel + 1 =>
    let (sig, env) := stepSig sig env
    if sig.skip then muxExitSkip fileName outPath sig env w
    else if sig.cancel then muxExitCancel outPath sig env w
    else if !sig.pauseSet then
      match muxPausedWait fuel sig env w with
      | (.cancelled, sig, env, w) => muxExitCancel outPath sig env w
      | (.skipped, sig, env, w) => muxExitSkip fileName outPath sig env w
      | (.resumed, sig, env, w) =>
        muxMonitor debugMode fuel fileName outPath sourcePath settings beh lines sig env w
    else
      match lines with
      | [] => muxExitNatural debugMode fileName outPath sourcePath settings beh sig env w
      | l :: rest =>
        let ls := pyStrip l
        let w := if ls ≠ "" ∧ debugMode = true ∧ lineHasKw ls = true then
            emit w (.log s!"   [FFMPEG] {ls}")
          else w
        muxMonitor debugMode fuel fileName outPath sourcePath settings beh rest sig env w

/-- `execute_ffmpeg_process`: pre-check the output path against the overwrite
setting, spawn the mux process, and run the monitor loop. -/
def execute_ffmpeg_process (debugMode : Bool) (fuel : Nat) (command : List String)
    (outPath fileName : String) (settings : Settings) (sourcePath : String)
    (beh : MuxBeh) (sig : SigState) (env : List EnvStep) (w : World) : ExecOut :=
  let pre : Option World :=
    if outPath ∈ w.disk then
      if settings.overwrite_existing then
        some (emit w (.log s!"Remuxing: {fileName} (Overwriting existing)"))
      else none
    else some (emit w (.log s!"Remuxing: {fileName}"))
  match pre with
  | none => ⟨.skipped, sig, env, emit w (.log s!"Skipping: {fileName} (Output file already exists)")⟩
  | some w =>
    if beh.spawnOk = false then
      -- Popen raised: the except branch logs and returns error
      let w := emit w (.log "   -> CRITICAL ERROR")
      ⟨.error, sig, env, emit w .skipButtonReset⟩
    else
      let w := { addEffect w (.spawn command) with spawned := w.spawned + 1 }
      let w := if beh.writesOutput then { w with disk := w.disk.insert outPath } else w
      muxMonitor debugMode fuel fileName outPath sourcePath settings beh beh.outputLines sig env w

/-! ## The job queue controller (`remux_videos_worker`) -/

/-- Ghost classification of how each file index was settled (history variable
for stating invariants; it does not influence control flow). -/
inductive Outcome where
  | completed
  | errored
  | skippedMid
  | skippedPre
  | skippedPaused
  | skippedInvalid
  | cancelledMid
deriving DecidableEq, Repr

/-- Controller state: current index, the two reported counters plus the
internal error counter, the flag state, the remaining environment trace, the
world, whether a cancel was observed mid-stream, and the per-file outcome
history. -/
structure WState where
  idx : Nat := 0
  remuxed : Nat := 0
  skippedCount : Nat := 0
  errorCount : Nat := 0
  sig : SigState := {}
  env : List EnvStep := []
  world : World := {}
  cancelObserved : Bool := false
  outcomes : List (Nat × Outcome) := []
deriving Repr

/-- Data the worker derives for the file at an index: path, basename, scan
result (if any), duration, and the output path computed up front. -/
def fileCtxAt (settings : Settings) (i : Nat) : String × String × Option ScanResult × Rat × String :=
  let p := settings.files.getD i ""
  let fn := basename p
  let sr := lookupScan settings.scan_results p
  let dur := (sr.map (fun r => r.duration)).getD 0
  (p, fn, sr, dur, outputPathFor settings p)

/-- Job termination: the final 100% progress event and the `Finished` event. -/
def finishJob (settings : Settings) (st : WState) : WState :=
  let tv := settings.files.length
  let w := emit st.world (.progress tv tv)
  let w := emit w (.finished st.remuxed st.skippedCount)
  { st with world := w }

/-- How the worker's pause wait ended. -/
inductive PWRes where
  | resumed
  | cancelledBreak
deriving DecidableEq, Repr

/-- State returned by the worker's pause wait. -/
structure PWOut where
  res : PWRes
  idx : Nat
  skippedCount : Nat
  sig : SigState
  env : List EnvStep
  world : World
  outcomes : List (Nat × Outcome)
deriving Repr

/-- The worker's `while not pause_event.is_set()` wait (lines 2261–2299 of the
source): while paused, a cancel breaks out, a skip advances to the next file
(clearing the flag, counting the skip, optionally moving the original, and
updating the progress/current-file events) without starting any process, and
otherwise the loop sleeps, consuming one environment action. -/
def workerPausedWait (debugMode : Bool) (settings : Settings) (fuel : Nat)
    (idx skippedCount : Nat) (sig : SigState) (env : List EnvStep) (w : World)
    (outcomes : List (Nat × Outcome)) : PWOut :=
  match fuel with
  | 0 => ⟨.resumed, idx, skippedCount, sig, env, { w with ranOut := true }, outcomes⟩
  | fuel + 1 =>
    if sig.pauseSet then ⟨.resumed, idx, skippedCount, sig, env, w, outcomes⟩
    else if sig.cancel then
      ⟨.cancelledBreak, idx, skippedCount, sig, env,
        emit w (.log "Operation cancelled by user."), outcomes⟩
    else if sig.skip then
      let (_, fn, _, _, outP) := fileCtxAt settings idx
      let sig := { sig with skip := false }
      let sc := skippedCount + 1
      let w := emit w (.log s!"[SKIP] Skipped while paused: {fn}")
      let w := if settings.file_action = .move then
          handle_original_file debugMode fn outP settings w
        else w
      let i1 := idx + 1
      let tv := settings.files.length
      let w := emit w (.progress i1 tv)
      let outcomes := (idx, Outcome.skippedPaused) :: outcomes
      if i1 < tv then
        let (_, nfn, _, ndur, _) := fileCtxAt settings i1
        let w := emit w (.currentFile nfn ndur)
        workerPausedWait debugMode settings fuel i1 sc sig env w outcomes
      else
        ⟨.resumed, i1, sc, sig, env, emit w (.currentFile "Processing Complete" 0), outcomes⟩
    else
      -- sleep: one checkpoint read (on an exhausted trace the default resumes)
      let se := stepSig sig env
      workerPausedWait debugMode settings fuel idx skippedCount se.1 se.2 w outcomes

/-- Events emitted after advancing to the next file in the pre-start-skip
branch (lines 2322–2332): progress, then the next current file or the
completion banner. -/
def advanceEventsPre (settings : Settings) (i1 : Nat) (w : World) : World :=
  let tv := settings.files.length
  let w := emit w (.progress i1 tv)
  if i1 < tv then
    let (_, nfn, _, ndur, _) := fileCtxAt settings i1
    emit w (.currentFile nfn ndur)
  else emit w (.currentFile "Processing Complete" 0)

/-- Events emitted after a mux attempt advances the index (lines 2374–2389):
progress, then either the next current file plus a debug log, or the
completion banner plus a debug log. -/
def advanceEventsMain (settings : Settings) (i1 : Nat) (w : World) : World :=
  let tv := settings.files.length
  let w := emit w (.progress i1 tv)
  if i1 < tv then
    let (_, nfn, _, ndur, _) := fileCtxAt settings i1
    let w := emit w (.currentFile nfn ndur)
    emit w (.log s!"[DEBUG] UI updated for next file: {nfn}")
  else
    let w := emit w (.currentFile "Processing Complete" 0)
    emit w (.log "[DEBUG] All files processed. Queue complete.")

/-- The mux execution the worker performs for the file at the current index
(lines 2345–2349): build the command, queue its construction warnings after
the skip-button reset, and run the monitored subprocess.  The fuel
`st.env.length + lines + 2` always suffices for the monitor loop, which
consumes an environment action or an output line at every step. -/
def workerExec (debugMode : Bool) (ffmpegPath : String) (settings : Settings)
    (muxs : List MuxBeh) (st : WState) : ExecOut :=
  let (p, fn, _, _, _) := fileCtxAt settings st.idx
  let b := build_ffmpeg_command ffmpegPath p settings
  let w := emits (emit st.world .skipButtonReset) b.events
  execute_ffmpeg_process debugMode
    (st.env.length + (muxs.getD st.idx {}).outputLines.length + 2)
    b.command b.outPath fn settings p (muxs.getD st.idx {}) st.sig st.env w

/-- One pass of the worker loop body after the pause block: the pre-start skip
check, the skip-button reset, the invalid-file check, and the mux execution
with its result handling.  Returns `Sum.inl` when the loop breaks (job over)
and `Sum.inr` with the next state when it continues. -/
def workerStep2 (debugMode : Bool) (ffmpegPath : String) (settings : Settings)
    (muxs : List MuxBeh) (st : WState) : WState ⊕ WState :=
  let (_, fn, sr, _, outP) := fileCtxAt settings st.idx
  if st.sig.skip then
    -- pre-start skip (lines 2310–2333)
    let sig := { st.sig with skip := false }
    let sc := st.skippedCount + 1
    let w := emit st.world (.log s!"[SKIP] Skipped before starting: {fn}")
    let w := if settings.file_action = .move then
        handle_original_file debugMode fn outP settings w
      else w
    let i1 := st.idx + 1
    let w := advanceEventsPre settings i1 w
    .inr { st with idx := i1, skippedCount := sc, sig := sig, world := w,
                   outcomes := (st.idx, Outcome.skippedPre) :: st.outcomes }
  else
    let w := emit st.world .skipButtonReset
    if ((sr.map (fun r => r.valid)).getD true) = false then
      -- invalid file (lines 2339–2343): no process, no disposition, no UI advance
      let w := emit w (.log s!"Skipping invalid file: {fn}")
      .inr { st with idx := st.idx + 1, skippedCount := st.skippedCount + 1, world := w,
                     outcomes := (st.idx, Outcome.skippedInvalid) :: st.outcomes }
    else
      let eo := workerExec debugMode ffmpegPath settings muxs st
      match eo.result with
      | .error =>
        let w := emit eo.world (.log s!"[DEBUG] File error: {fn}")
        let i1 := st.idx + 1
        let w := advanceEventsMain settings i1 w
        .inr { st with idx := i1, errorCount := st.errorCount + 1,
                       skippedCount := st.skippedCount + 1, sig := eo.sig, env := eo.env,
                       world := w, outcomes := (st.idx, Outcome.errored) :: st.outcomes }
      | .completed =>
        let w := emit eo.world (.log s!"[DEBUG] File completed: {fn}")
        let i1 := st.idx + 1
        let w := advanceEventsMain settings i1 w
        .inr { st with idx := i1, remuxed := st.remuxed + 1, sig := eo.sig, env := eo.env,
                       world := w, outcomes := (st.idx, Outcome.completed) :: st.outcomes }
      | .skipped =>
        let w := emit eo.world (.log s!"[DEBUG] File skipped: {fn}")
        let w := if settings.file_action = .move then
            handle_original_file debugMode fn outP settings w
          else w
        let i1 := st.idx + 1
        let w := advanceEventsMain settings i1 w
        .inr { st with idx := i1, skippedCount := st.skippedCount + 1, sig := eo.sig,
                       env := eo.env, world := w,
                       outcomes := (st.idx, Outcome.skippedMid) :: st.outcomes }
      | .cancelled =>
        .inl (finishJob settings { st with sig := eo.sig, env := eo.env, world := eo.world,
                                           cancelObserved := true,
                                           outcomes := (st.idx, Outcome.cancelledMid) :: st.outcomes })

/-- The worker's pause block (lines 2259–2307): run the pause wait, then
either break out of the whole loop (`Sum.inl`, on a cancel observed while
paused, or on skipping past the end of the queue) or continue the iteration
with the possibly advanced state (`Sum.inr`). -/
def workerPauseBlock (debugMode : Bool) (settings : Settings) (fuel : Nat) (st : WState)
    (sig : SigState) (env : List EnvStep) (w : World) : WState ⊕ WState :=
  let pw := workerPausedWait debugMode settings fuel st.idx st.skippedCount sig env w
    st.outcomes
  let st2 : WState := { st with idx := pw.idx, skippedCount := pw.skippedCount, sig := pw.sig,
                                env := pw.env, world := pw.world, outcomes := pw.outcomes }
  match pw.res with
  | .cancelledBreak => .inl (finishJob settings { st2 with cancelObserved := true })
  | .resumed =>
    if pw.idx ≥ settings.files.length then .inl (finishJob settings st2)
    else .inr st2

/-- The worker loop (`while self.current_file_index < len(self.file_queue)`).
Each iteration observes the flags once, services cancel, emits the per-file
header events, runs the pause block, and then the rest of the body. -/
def workerLoop (debugMode : Bool) (ffmpegPath : String) (settings : Settings)
    (muxs : List MuxBeh) (fuel : Nat) (st : WState) : WState :=
  let tv := settings.files.length
  if st.idx ≥ tv then finishJob settings st
  else match fuel with
  | 0 => { st with world := { st.world with ranOut := true } }
  | fuel + 1 =>
    let (sig, env) := stepSig st.sig st.env
    if sig.cancel then
      let w1 := emit st.world (.log "Operation cancelled by user.")
      let st1 : WState :=
        { st with sig := sig, env := env, cancelObserved := true, world := w1 }
      finishJob settings st1
    else
      let (_, fn, _, dur, _) := fileCtxAt settings st.idx
      let i1 := st.idx + 1
      let w := emit st.world (.log s!"Processing file {i1}/{tv}: {fn}")
      let w := emit w (.progress st.idx tv)
      let w := emit w (.currentFile fn dur)
      let afterPause : WState ⊕ WState :=
        if sig.pauseSet = false then workerPauseBlock debugMode settings fuel st sig env w
        else .inr { st with sig := sig, env := env, world := w }
      match afterPause with
      | .inl final => final
      | .inr st3 =>
        match workerStep2 debugMode ffmpegPath settings muxs st3 with
        | .inl final => final
        | .inr st4 => workerLoop debugMode ffmpegPath settings muxs fuel st4

/-- `remux_videos_worker`: run a whole job from index 0 with zeroed counters.
`sig0` is the flag state at thread start (`start_remuxing_process` clears
cancel and sets the pause event, but a stale skip request may persist);
`initDisk` is the set of candidate output paths already on disk. -/
def remux_videos_worker (debugMode : Bool) (ffmpegPath : String) (settings : Settings)
    (muxs : List MuxBeh) (sig0 : SigState) (env : List EnvStep) (initDisk : List String)
    (fuel : Nat) : WState :=
  workerLoop debugMode ffmpegPath settings muxs fuel
    { idx := 0, remuxed := 0, skippedCount := 0, errorCount := 0, sig := sig0, env := env,
      world := { disk := initDisk }, cancelObserved := false, outcomes := [] }

/-- Disk accounting for the no-stray-output property: every candidate output
path on disk is either left over from before the job started or is the output
path of a file whose mux attempt ran to a natural exit (completed or errored).
-/
def diskJustified (settings : Settings) (d0 : List String) (st : WState) : Prop :=
  ∀ q ∈ st.world.disk, q ∈ d0 ∨
    ∃ i, ((i, Outcome.completed) ∈ st.outcomes ∨ (i, Outcome.errored) ∈ st.outcomes) ∧
      q = outputPathFor settings (settings.files.getD i "")

/-! ## Theorems about command construction -/

/-- Helper: the target path of a built command is always `outputPathFor`. -/
theorem build_outPath (ffmpegPath p : String) (settings : Settings) :
    (build_ffmpeg_command ffmpegPath p settings).outPath = outputPathFor settings p := by
  unfold build_ffmpeg_command
  by_cases hts : settings.use_timescale
  · simp only [hts, if_true]
    cases (lookupScan settings.scan_results p).bind (fun r => r.fps) with
    | none => rfl
    | some ts =>
      by_cases hne : ts = "" <;> by_cases hp : pyFloatParses ts <;> simp [hne, hp]
  · simp only [Bool.not_eq_true] at hts
    simp [hts]

/-- C6: for every input file and settings, the constructed mux command is the
fixed copy-video prefix, followed by the audio part (map all audio streams
and copy them when audio is included, strip audio with `-an` otherwise),
followed by at most a timescale flag, followed by the target path; and the
target path is the output directory (defaulting to the source file's
directory) joined with the input's basename stem plus the output format. -/
theorem c6_command_construction (ffmpegPath p : String) (settings : Settings) :
    ∃ tsTail : List String,
      (build_ffmpeg_command ffmpegPath p settings).command =
        [ffmpegPath, "-y", "-i", p, "-c:v", "copy"] ++
          (if settings.includeSound then ["-map", "0:v", "-map", "0:a", "-c:a", "copy"]
           else ["-an"]) ++ tsTail ++ [(build_ffmpeg_command ffmpegPath p settings).outPath] ∧
      (tsTail = [] ∨ ∃ ts, tsTail = ["-video_track_timescale", ts]) ∧
      (build_ffmpeg_command ffmpegPath p settings).outPath =
        joinPath (if settings.output_dir = "" then dirname p else settings.output_dir)
          (splitextRoot (basename p) ++ settings.output_format) := by
  have hout := build_outPath ffmpegPath p settings
  have houtv : (build_ffmpeg_command ffmpegPath p settings).outPath =
      joinPath (if settings.output_dir = "" then dirname p else settings.output_dir)
        (splitextRoot (basename p) ++ settings.output_format) := by
    rw [hout]; rfl
  by_cases hts : settings.use_timescale
  · rcases hfps : (lookupScan settings.scan_results p).bind (fun r => r.fps) with _ | ts
    · refine ⟨[], ?_, Or.inl rfl, houtv⟩
      simp only [build_ffmpeg_command, baseCommand, hts, if_true, hfps, hout]
      simp [outputPathFor]
    · by_cases hne : ts = ""
      · refine ⟨[], ?_, Or.inl rfl, houtv⟩
        subst hne
        simp only [build_ffmpeg_command, baseCommand, hts, if_true, hfps, hout]
        simp [outputPathFor]
      · by_cases hp : pyFloatParses ts
        · refine ⟨["-video_track_timescale", ts], ?_, Or.inr ⟨ts, rfl⟩, houtv⟩
          simp only [build_ffmpeg_command, baseCommand, hts, if_true, hfps, hout]
          simp [outputPathFor, hne, hp]
        · refine ⟨[], ?_, Or.inl rfl, houtv⟩
          simp only [build_ffmpeg_command, baseCommand, hts, if_true, hfps, hout]
          simp [outputPathFor, hne, hp]
  · refine ⟨[], ?_, Or.inl rfl, houtv⟩
    simp only [Bool.not_eq_true] at hts
    simp only [build_ffmpeg_command, baseCommand, hts, hout]
    simp [outputPathFor]

/-- C5: with the timescale option enabled, a present, non-empty frame-rate
string that parses as a number is passed via the timescale flag with exactly
that value and no warning is logged; a missing frame rate, an empty one, or
one that fails to parse yields a command without the flag and exactly one
warning log event for that file. -/
theorem c5_timescale_handling (ffmpegPath p : String) (settings : Settings)
    (hts : settings.use_timescale = true) :
    (∀ s, (lookupScan settings.scan_results p).bind (fun r => r.fps) = some s → s ≠ "" →
        pyFloatParses s = true →
        (build_ffmpeg_command ffmpegPath p settings).command =
          baseCommand ffmpegPath p settings ++ ["-video_track_timescale", s] ++
            [(build_ffmpeg_command ffmpegPath p settings).outPath] ∧
        (build_ffmpeg_command ffmpegPath p settings).events = []) ∧
    ((lookupScan settings.scan_results p).bind (fun r => r.fps) = none →
        (build_ffmpeg_command ffmpegPath p settings).command =
          baseCommand ffmpegPath p settings ++
            [(build_ffmpeg_command ffmpegPath p settings).outPath] ∧
        ∃ m, (build_ffmpeg_command ffmpegPath p settings).events = [Event.log m]) ∧
    (∀ s, (lookupScan settings.scan_results p).bind (fun r => r.fps) = some s →
        pyFloatParses s = false →
        (build_ffmpeg_command ffmpegPath p settings).command =
          baseCommand ffmpegPath p settings ++
            [(build_ffmpeg_command ffmpegPath p settings).outPath] ∧
        ∃ m, (build_ffmpeg_command ffmpegPath p settings).events = [Event.log m]) := by
  refine ⟨?_, ?_, ?_⟩
  · intro s hs hne hp
    constructor
    · simp only [build_ffmpeg_command, hts, if_true, hs]
      simp [hne, hp]
    · simp only [build_ffmpeg_command, hts, if_true, hs]
      simp [hne, hp]
  · intro hnone
    constructor
    · simp only [build_ffmpeg_command, hts, if_true, hnone]
    · simp only [build_ffmpeg_command, hts, if_true, hnone]
      simp
  · intro s hs hp
    by_cases hne : s = ""
    · subst hne
      constructor
      · simp only [build_ffmpeg_command, hts, if_true, hs]
        simp
      · simp only [build_ffmpeg_command, hts, if_true, hs]
        simp
    · constructor
      · simp only [build_ffmpeg_command, hts, if_true, hs]
        simp [hne, hp]
      · simp only [build_ffmpeg_command, hts, if_true, hs]
        simp [hne, hp]

/-! ## Theorems about the metadata scanner -/

/-- Helper: the probing block never touches the `valid` field. -/
theorem scanCore_valid (snd : Bool) (fn : String) (pe : ProbeEnv) :
    (scanCore snd fn pe).1.valid = true := by
  unfold scanCore
  cases pe.fps with
  | timeout => rfl
  | err rc s => rfl
  | exn => rfl
  | ok out =>
    rcases hpf : parseFpsField (pyStrip out) with ⟨fo, e⟩
    cases e with
    | some e => simp [hpf]
    | none =>
      simp only [hpf]
      cases pe.dur with
      | timeout => rfl
      | exn => rfl
      | ok dout =>
        rcases hsti : getSoundTrackInfo pe.sound fn with ⟨ts, evs⟩
        simp only [hsti]
        repeat' split
        all_goals rfl
      | err rc dout =>
        rcases hsti : getSoundTrackInfo pe.sound fn with ⟨ts, evs⟩
        simp only [hsti]
        repeat' split
        all_goals rfl

/-- Helper: when the fps probe returns output and the duration probe does not
raise, the scanner's fps field and escaping exception are exactly those of the
frame-rate parsing block. -/
theorem scanCore_ok_fps (snd : Bool) (fn : String) (pe : ProbeEnv) (out : String)
    (hfps : pe.fps = ProbeOut.ok out) (hd1 : pe.dur ≠ ProbeOut.timeout)
    (hd2 : pe.dur ≠ ProbeOut.exn) :
    (scanCore snd fn pe).1.fps = (parseFpsField (pyStrip out)).1 ∧
    (scanCore snd fn pe).2.2 = (parseFpsField (pyStrip out)).2 := by
  unfold scanCore
  rw [hfps]
  rcases hpf : parseFpsField (pyStrip out) with ⟨fo, e⟩
  cases e with
  | some e => simp [hpf]
  | none =>
    simp only [hpf]
    cases hdur : pe.dur with
    | timeout => exact absurd hdur hd1
    | exn => exact absurd hdur hd2
    | ok dout =>
      rcases hsti : getSoundTrackInfo pe.sound fn with ⟨ts, evs⟩
      simp only [hsti]
      refine ⟨?_, ?_⟩ <;> (repeat' split) <;> rfl
    | err rc dout =>
      rcases hsti : getSoundTrackInfo pe.sound fn with ⟨ts, evs⟩
      simp only [hsti]
      refine ⟨?_, ?_⟩ <;> (repeat' split) <;> rfl

/-- Helper: with validation enabled, the returned descriptor is the probing
block's result when no exception escapes, and is marked invalid when one
does. -/
theorem scan_single_file_validated (snd : Bool) (filePath : String) (pe : ProbeEnv) :
    ((scanCore snd (basename filePath) pe).2.2 = none →
      (scan_single_file true snd filePath pe).1 = (scanCore snd (basename filePath) pe).1) ∧
    (∀ e, (scanCore snd (basename filePath) pe).2.2 = some e →
      (scan_single_file true snd filePath pe).1.valid = false) := by
  rcases hc : scanCore snd (basename filePath) pe with ⟨r, evs, exn⟩
  constructor
  · intro hnone
    have hv := scanCore_valid snd (basename filePath) pe
    simp only [scan_single_file]
    rw [hc] at hv ⊢
    simp only at hnone hv
    subst hnone
    simp [hv]
  · intro e he
    simp only [scan_single_file]
    rw [hc]
    simp only at he
    subst he
    cases e <;> simp

/-- C7 counterexample: the probe output `"a/b"` is an unparsable frame-rate
string (it contains a slash whose parts are not integers), yet with
validation enabled `scan_single_file` marks the file invalid instead of
treating it as a missing frame rate. -/
theorem c7_counterexample :
    (scan_single_file true false "/d/x.mkv"
      { fps := ProbeOut.ok "a/b", dur := ProbeOut.ok "1", sound := ProbeOut.ok "" }).1.valid
        = false ∧
    pyFloatParses "a/b" = false := by
  constructor
  · rfl
  · rfl

/-- C7 amended: during scanning (validation enabled), a probe result of
`0/0`, a fraction with zero denominator, or an unparsable frame-rate string
not containing a slash leaves the descriptor with no frame rate and does not
mark the file invalid; but a slash-containing result whose parts do not both
parse as integers raises and marks the file invalid. -/
theorem c7_amended (filePath out : String) (pe : ProbeEnv) (snd : Bool)
    (hfps : pe.fps = ProbeOut.ok out) (hd1 : pe.dur ≠ ProbeOut.timeout)
    (hd2 : pe.dur ≠ ProbeOut.exn) :
    (pyStrip out = "0/0" →
      (scan_single_file true snd filePath pe).1.valid = true ∧
      (scan_single_file true snd filePath pe).1.fps = none) ∧
    (strContainsChar (pyStrip out) '/' = false → pyFloatParses (pyStrip out) = false →
      (scan_single_file true snd filePath pe).1.valid = true ∧
      (scan_single_file true snd filePath pe).1.fps = none) ∧
    (∀ a b n, strContainsChar (pyStrip out) '/' = true → pySplit (pyStrip out) '/' = [a, b] →
      pyInt? a = some n → pyInt? b = some 0 →
      (scan_single_file true snd filePath pe).1.valid = true ∧
      (scan_single_file true snd filePath pe).1.fps = none) ∧
    (strContainsChar (pyStrip out) '/' = true → pyStrip out ≠ "0/0" →
      (∀ a b, pySplit (pyStrip out) '/' = [a, b] → pyInt? a = none ∨ pyInt? b = none) →
      (scan_single_file true snd filePath pe).1.valid = false) := by
  have hfv := scanCore_ok_fps snd (basename filePath) pe out hfps hd1 hd2
  have hwrap := scan_single_file_validated snd filePath pe
  refine ⟨?_, ?_, ?_, ?_⟩
  · intro hz
    have hpf : parseFpsField (pyStrip out) = (none, none) := by
      rw [hz]
      rfl
    have hres := hwrap.1 (by rw [hfv.2, hpf])
    rw [hres]
    refine ⟨scanCore_valid snd (basename filePath) pe, ?_⟩
    rw [hfv.1, hpf]
  · intro hcont hparse
    have hpf : parseFpsField (pyStrip out) = (none, none) := by
      unfold parseFpsField
      have hne0 : pyStrip out ≠ "0/0" := by
        intro hcontra
        rw [hcontra] at hcont
        exact absurd hcont (by decide)
      rw [if_neg (by simp [hcont])]
      by_cases hemp : pyStrip out = ""
      · rw [if_neg (by simp [hemp])]
      · rw [if_pos ⟨hemp, hne0⟩, hparse]
        simp
    have hres := hwrap.1 (by rw [hfv.2, hpf])
    rw [hres]
    refine ⟨scanCore_valid snd (basename filePath) pe, ?_⟩
    rw [hfv.1, hpf]
  · intro a b n hcont hsplit ha hb
    by_cases hz : pyStrip out = "0/0"
    · have hpf : parseFpsField (pyStrip out) = (none, none) := by
        rw [hz]
        rfl
      have hres := hwrap.1 (by rw [hfv.2, hpf])
      rw [hres]
      refine ⟨scanCore_valid snd (basename filePath) pe, ?_⟩
      rw [hfv.1, hpf]
    · have hpf : parseFpsField (pyStrip out) = (none, none) := by
        unfold parseFpsField
        rw [if_pos ⟨hcont, hz⟩, hsplit]
        simp [ha, hb]
      have hres := hwrap.1 (by rw [hfv.2, hpf])
      rw [hres]
      refine ⟨scanCore_valid snd (basename filePath) pe, ?_⟩
      rw [hfv.1, hpf]
  · intro hcont hz hbad
    have hpf : (parseFpsField (pyStrip out)).2 = some ScanExn.otherExn := by
      unfold parseFpsField
      rw [if_pos ⟨hcont, hz⟩]
      rcases hsplit : pySplit (pyStrip out) '/' with _ | ⟨a, _ | ⟨b, _ | ⟨c, rest⟩⟩⟩
      · rfl
      · rfl
      · rcases hbad a b hsplit with hab | hbb
        · cases hob : pyInt? b <;> simp [hab, hob]
        · cases hoa : pyInt? a <;> simp [hbb, hoa]
      · rfl
    exact hwrap.2 ScanExn.otherExn (hfv.2.trans hpf)

/-! ## Helper lemmas about the job controller -/

/-- Helper: `finishJob` only appends the two terminal events. -/
theorem finishJob_spec (settings : Settings) (st : WState) :
    (finishJob settings st).remuxed = st.remuxed ∧
    (finishJob settings st).skippedCount = st.skippedCount ∧
    (finishJob settings st).idx = st.idx ∧
    (finishJob settings st).cancelObserved = st.cancelObserved ∧
    (finishJob settings st).world.ranOut = st.world.ranOut ∧
    (finishJob settings st).world.spawned = st.world.spawned ∧
    (finishJob settings st).world.disk = st.world.disk ∧
    (finishJob settings st).outcomes = st.outcomes ∧
    (finishJob settings st).world.revEvents.head? =
      some (Event.finished st.remuxed st.skippedCount) := by
  simp [finishJob, emit]

/-- Helper: the worker's pause wait advances the index and the skipped counter
in lockstep, never decreases the index, and never passes the end of the
queue. -/
theorem workerPausedWait_counts (dm : Bool) (settings : Settings) :
    ∀ fuel idx sc sig env w oc res,
      workerPausedWait dm settings fuel idx sc sig env w oc = res →
      res.idx + sc = res.skippedCount + idx ∧
      idx ≤ res.idx ∧
      (idx < settings.files.length → res.idx ≤ settings.files.length) := by
  intro fuel
  induction fuel with
  | zero =>
    intro idx sc sig env w oc res h
    simp only [workerPausedWait] at h
    subst h
    refine ⟨?_, ?_, ?_⟩ <;> simp <;> omega
  | succ fuel ih =>
    intro idx sc sig env w oc res h
    simp only [workerPausedWait] at h
    split at h
    · subst h
      refine ⟨?_, ?_, ?_⟩ <;> simp <;> omega
    · split at h
      · subst h
        refine ⟨?_, ?_, ?_⟩ <;> simp <;> omega
      · split at h
        · split at h
          · obtain ⟨h1, h2, h3⟩ := ih _ _ _ _ _ _ _ h
            refine ⟨by omega, by omega, fun _ => h3 (by omega)⟩
          · subst h
            refine ⟨?_, ?_, ?_⟩ <;> simp <;> omega
        · exact ih _ _ _ _ _ _ _ h

/-- Helper: what the pause block does to the counter/index invariant.  On a
break-out, either a cancel was observed or the job finished with balanced
counters and a final `Finished` event; on a continue, the invariant and the
loop bound still hold. -/
theorem workerPauseBlock_spec (dm : Bool) (settings : Settings) (fuel : Nat) (st : WState)
    (sig : SigState) (env : List EnvStep) (w : World)
    (hc : st.remuxed + st.skippedCount = st.idx) (hlt : st.idx < settings.files.length) :
    (∀ final, workerPauseBlock dm settings fuel st sig env w = Sum.inl final →
      final.cancelObserved = true ∨
      (final.remuxed + final.skippedCount = settings.files.length ∧
       final.world.revEvents.head? =
         some (Event.finished final.remuxed final.skippedCount) ∧
       final.cancelObserved = st.cancelObserved)) ∧
    (∀ st2, workerPauseBlock dm settings fuel st sig env w = Sum.inr st2 →
      st2.remuxed + st2.skippedCount = st2.idx ∧
      st2.idx < settings.files.length ∧
      st2.cancelObserved = st.cancelObserved) := by
  obtain ⟨p1, p2, p3⟩ := workerPausedWait_counts dm settings fuel st.idx st.skippedCount
    sig env w st.outcomes _ rfl
  constructor
  · intro final h
    simp only [workerPauseBlock] at h
    split at h
    · injection h with h
      subst h
      left
      exact ((finishJob_spec settings _).2.2.2.1)
    · split at h
      · injection h with h
        subst h
        right
        obtain ⟨f1, f2, f3, f4, _, _, _, _, f9⟩ := finishJob_spec settings
          { st with
            idx := (workerPausedWait dm settings fuel st.idx st.skippedCount sig env w
              st.outcomes).idx,
            skippedCount := (workerPausedWait dm settings fuel st.idx st.skippedCount sig env w
              st.outcomes).skippedCount,
            sig := (workerPausedWait dm settings fuel st.idx st.skippedCount sig env w
              st.outcomes).sig,
            env := (workerPausedWait dm settings fuel st.idx st.skippedCount sig env w
              st.outcomes).env,
            world := (workerPausedWait dm settings fuel st.idx st.skippedCount sig env w
              st.outcomes).world,
            outcomes := (workerPausedWait dm settings fuel st.idx st.skippedCount sig env w
              st.outcomes).outcomes }
        refine ⟨?_, ?_, ?_⟩
        · rw [f1, f2]
          simp only
          have := p3 hlt
          omega
        · rw [f9]
          rw [f1, f2]
        · rw [f4]
      · simp at h
  · intro st2 h
    simp only [workerPauseBlock] at h
    split at h
    · simp at h
    · split at h
      · simp at h
      · injection h with h
        subst h
        refine ⟨?_, ?_, ?_⟩
        · simp only
          omega
        · simp only
          omega
        · rfl

/-- Helper: what one pass of the post-pause body does to the counters: a
continue settles exactly one file (one counter increment, index plus one) and
leaves the cancel flag alone; a break means a cancel was observed. -/
theorem workerStep2_spec (dm : Bool) (fp : String) (settings : Settings) (muxs : List MuxBeh)
    (st : WState) :
    (∀ st4, workerStep2 dm fp settings muxs st = Sum.inr st4 →
      st4.remuxed + st4.skippedCount = st.remuxed + st.skippedCount + 1 ∧
      st4.idx = st.idx + 1 ∧ st4.cancelObserved = st.cancelObserved) ∧
    (∀ final, workerStep2 dm fp settings muxs st = Sum.inl final →
      final.cancelObserved = true) := by
  constructor
  · intro st4 h
    simp only [workerStep2] at h
    split at h
    · injection h with h
      subst h
      exact ⟨by simp only; omega, rfl, rfl⟩
    · split at h
      · injection h with h
        subst h
        exact ⟨by simp only; omega, rfl, rfl⟩
      · split at h
        · injection h with h
          subst h
          exact ⟨by simp only; omega, rfl, rfl⟩
        · injection h with h
          subst h
          exact ⟨by simp only; omega, rfl, rfl⟩
        · injection h with h
          subst h
          exact ⟨by simp only; omega, rfl, rfl⟩
        · simp at h
  · intro final h
    simp only [workerStep2] at h
    split at h
    · simp at h
    · split at h
      · simp at h
      · split at h
        · simp at h
        · simp at h
        · simp at h
        · injection h with h
          subst h
          exact (finishJob_spec settings _).2.2.2.1

/-- Helper: the worker loop preserves `remuxed + skipped = index`, and when it
terminates with fuel to spare and no cancel observed, the counters cover the
whole queue and the last event is `Finished` with those counters. -/
theorem workerLoop_finished_counts (dm : Bool) (fp : String) (settings : Settings)
    (muxs : List MuxBeh) :
    ∀ fuel st res,
      workerLoop dm fp settings muxs fuel st = res →
      st.remuxed + st.skippedCount = st.idx →
      st.idx ≤ settings.files.length →
      res.world.ranOut = false →
      res.cancelObserved = false →
      res.remuxed + res.skippedCount = settings.files.length ∧
      res.world.revEvents.head? = some (Event.finished res.remuxed res.skippedCount) := by
  intro fuel
  induction fuel with
  | zero =>
    intro st res h hc hle hro hco
    simp only [workerLoop] at h
    split at h
    · subst h
      obtain ⟨f1, f2, f3, _, _, _, _, _, f9⟩ := finishJob_spec settings st
      refine ⟨?_, ?_⟩
      · rw [f1, f2]
        omega
      · rw [f9, f1, f2]
    · subst h
      simp at hro
  | succ fuel ih =>
    intro st res h hc hle hro hco
    rw [workerLoop] at h
    split at h
    · subst h
      obtain ⟨f1, f2, f3, _, _, _, _, _, f9⟩ := finishJob_spec settings st
      refine ⟨?_, ?_⟩
      · rw [f1, f2]
        omega
      · rw [f9, f1, f2]
    · simp only at h
      split at h
      · -- cancel observed at the top of the loop
        subst h
        rw [(finishJob_spec settings _).2.2.2.1] at hco
        exact absurd hco (by simp)
      · -- the body: the match on the pause block's outcome
        split at h
        · -- the loop broke out of the pause block
          subst h
          rename_i final heq
          split at heq
          · -- it was the pause block
            rcases (workerPauseBlock_spec dm settings fuel st _ _ _ hc
                (by omega)).1 _ heq with hcanc | ⟨g1, g2, g3⟩
            · rw [hcanc] at hco
              exact absurd hco (by decide)
            · exact ⟨g1, g2⟩
          · simp at heq
        · -- the iteration continued with st3
          rename_i st3 heq
          split at h
          · -- workerStep2 broke out (mux cancelled)
            subst h
            rw [(workerStep2_spec dm fp settings muxs st3).2 _ (by assumption)] at hco
            exact absurd hco (by decide)
          · rename_i st4 hws
            obtain ⟨k1, k2, k3⟩ := (workerStep2_spec dm fp settings muxs st3).1 _ hws
            split at heq
            · obtain ⟨g1, g2, g3⟩ := (workerPauseBlock_spec dm settings fuel st _ _ _ hc
                (by omega)).2 _ heq
              exact ih st4 res h (by omega) (by omega) hro hco
            · injection heq with heq
              subst heq
              simp only at k1 k2
              exact ih st4 res h (by omega) (by omega) hro hco

/-- C1: for every job run that terminates without fuel exhaustion and without
cancellation being observed mid-stream, the final `Finished` event carries
counters with `remuxed + skipped` equal to the total number of input files
(mux errors and invalid-file skips are folded into `skipped`), and it is the
last event emitted. -/
theorem c1_finished_counts (dm : Bool) (fp : String) (settings : Settings)
    (muxs : List MuxBeh) (sig0 : SigState) (env : List EnvStep) (initDisk : List String)
    (fuel : Nat)
    (hro : (remux_videos_worker dm fp settings muxs sig0 env initDisk fuel).world.ranOut
      = false)
    (hco : (remux_videos_worker dm fp settings muxs sig0 env initDisk fuel).cancelObserved
      = false) :
    (remux_videos_worker dm fp settings muxs sig0 env initDisk fuel).remuxed +
      (remux_videos_worker dm fp settings muxs sig0 env initDisk fuel).skippedCount =
      settings.files.length ∧
    (remux_videos_worker dm fp settings muxs sig0 env initDisk fuel).world.revEvents.head? =
      some (Event.finished
        (remux_videos_worker dm fp settings muxs sig0 env initDisk fuel).remuxed
        (remux_videos_worker dm fp settings muxs sig0 env initDisk fuel).skippedCount) :=
  workerLoop_finished_counts dm fp settings muxs fuel
    { idx := 0, remuxed := 0, skippedCount := 0, errorCount := 0, sig := sig0, env := env,
      world := { disk := initDisk }, cancelObserved := false, outcomes := [] }
    _ rfl rfl (Nat.zero_le _) hro hco

/-- Witness for C1 at a concrete run: one file, quiescent signals, a clean
mux exit. -/
theorem c1_finished_counts_witness :
    (remux_videos_worker false "ffmpeg"
      { files := ["/d/x.mkv"], output_dir := "", includeSound := false,
        file_action := .keep, use_timescale := false, scan_results := [],
        output_format := ".mp4", preserve_timestamps := false,
        overwrite_existing := false } [{}] {} [] [] 3).remuxed +
    (remux_videos_worker false "ffmpeg"
      { files := ["/d/x.mkv"], output_dir := "", includeSound := false,
        file_action := .keep, use_timescale := false, scan_results := [],
        output_format := ".mp4", preserve_timestamps := false,
        overwrite_existing := false } [{}] {} [] [] 3).skippedCount = 1 :=
  (c1_finished_counts false "ffmpeg"
    { files := ["/d/x.mkv"], output_dir := "", includeSound := false,
      file_action := .keep, use_timescale := false, scan_results := [],
      output_format := ".mp4", preserve_timestamps := false,
      overwrite_existing := false } [{}] {} [] [] 3 (by decide) (by decide)).1

/-- Helper: the file-disposition handler only logs and records move/delete
effects; it never spawns a process, touches the output paths on disk, or
changes the fuel marker. -/
theorem handle_original_file_world (dm : Bool) (fn op : String) (settings : Settings)
    (w : World) :
    (handle_original_file dm fn op settings w).spawned = w.spawned ∧
    (handle_original_file dm fn op settings w).ranOut = w.ranOut ∧
    (handle_original_file dm fn op settings w).disk = w.disk := by
  unfold handle_original_file
  repeat' split
  all_goals simp only [emit, addEffect]
  all_goals (repeat' split)
  all_goals simp

/-- C2: N consecutive skip requests issued while the controller is paused are
each cleared, advance the index by N in lockstep with the skipped counter,
and start zero mux subprocesses — skip preempts pause and a paused skip never
spawns anything. -/
theorem c2_skip_preempts_pause (dm : Bool) (settings : Settings) :
    ∀ (N : Nat) (fuel idx sc : Nat) (w : World) (oc : List (Nat × Outcome)) (res : PWOut),
      workerPausedWait dm settings fuel idx sc
        { pauseSet := false, cancel := false, skip := false }
        (List.replicate N { pauseSet := false, cancelReq := false, skipReq := true }) w oc
        = res →
      idx + N < settings.files.length →
      2 * N + 2 ≤ fuel →
      res.res = PWRes.resumed ∧ res.idx = idx + N ∧ res.skippedCount = sc + N ∧
      res.world.spawned = w.spawned ∧ res.sig.skip = false ∧
      res.world.ranOut = w.ranOut := by
  intro N
  induction N with
  | zero =>
    intro fuel idx sc w oc res h hlt hfuel
    obtain ⟨k, rfl⟩ : ∃ k, fuel = k + 1 := ⟨fuel - 1, by omega⟩
    obtain ⟨k2, rfl⟩ : ∃ k2, k = k2 + 1 := ⟨k - 1, by omega⟩
    rw [List.replicate, workerPausedWait] at h
    simp only [stepSig] at h
    simp at h
    rw [workerPausedWait] at h
    simp at h
    subst h
    refine ⟨rfl, rfl, rfl, rfl, rfl, rfl⟩
  | succ N ih =>
    intro fuel idx sc w oc res h hlt hfuel
    obtain ⟨k, rfl⟩ : ∃ k, fuel = k + 1 := ⟨fuel - 1, by omega⟩
    rw [List.replicate_succ, workerPausedWait] at h
    simp only [stepSig, applyEnv] at h
    simp at h
    obtain ⟨k2, rfl⟩ : ∃ k2, k = k2 + 1 := ⟨k - 1, by omega⟩
    rw [workerPausedWait] at h
    simp at h
    rw [if_pos (show idx + 1 < settings.files.length by omega)] at h
    obtain ⟨a1, a2, a3, a4, a5, a6⟩ := ih k2 (idx + 1) (sc + 1) _ _ res h
      (by omega) (by omega)
    refine ⟨a1, by omega, by omega, ?_, a5, ?_⟩
    · rw [a4]
      simp only [emit]
      split
      · rw [(handle_original_file_world dm _ _ settings _).1]
      · rfl
    · rw [a6]
      simp only [emit]
      split
      · rw [(handle_original_file_world dm _ _ settings _).2.1]
      · rfl

/-- Witness for C2 at a concrete run: one skip issued while paused, two files
queued. -/
theorem c2_skip_preempts_pause_witness :
    (workerPausedWait false
      { files := ["/d/x.mkv", "/d/y.mkv"], output_dir := "", includeSound := false,
        file_action := .keep, use_timescale := false, scan_results := [],
        output_format := ".mp4", preserve_timestamps := false, overwrite_existing := false }
      4 0 0 { pauseSet := false, cancel := false, skip := false }
      (List.replicate 1 { pauseSet := false, cancelReq := false, skipReq := true })
      {} []).idx = 0 + 1 ∧
    (workerPausedWait false
      { files := ["/d/x.mkv", "/d/y.mkv"], output_dir := "", includeSound := false,
        file_action := .keep, use_timescale := false, scan_results := [],
        output_format := ".mp4", preserve_timestamps := false, overwrite_existing := false }
      4 0 0 { pauseSet := false, cancel := false, skip := false }
      (List.replicate 1 { pauseSet := false, cancelReq := false, skipReq := true })
      {} []).skippedCount = 0 + 1 ∧
    (workerPausedWait false
      { files := ["/d/x.mkv", "/d/y.mkv"], output_dir := "", includeSound := false,
        file_action := .keep, use_timescale := false, scan_results := [],
        output_format := ".mp4", preserve_timestamps := false, overwrite_existing := false }
      4 0 0 { pauseSet := false, cancel := false, skip := false }
      (List.replicate 1 { pauseSet := false, cancelReq := false, skipReq := true })
      {} []).world.spawned = ({} : World).spawned := by
  have h := c2_skip_preempts_pause false
    { files := ["/d/x.mkv", "/d/y.mkv"], output_dir := "", includeSound := false,
      file_action := .keep, use_timescale := false, scan_results := [],
      output_format := ".mp4", preserve_timestamps := false, overwrite_existing := false }
    1 4 0 0 {} [] _ rfl (by decide) (by decide)
  exact ⟨h.2.1, h.2.2.1, h.2.2.2.1⟩

/-- Helper: with the job running and no pending signals or environment
actions, the monitor loop reads every output line (logging none when debug
mode is off) and breaks to the natural-exit handler. -/
theorem muxMonitor_quiescent (fn out sp : String) (settings : Settings) (beh : MuxBeh) :
    ∀ (lines : List String) (fuel : Nat) (w : World), lines.length < fuel →
      muxMonitor false fuel fn out sp settings beh lines
        { pauseSet := true, cancel := false, skip := false } [] w =
      muxExitNatural false fn out sp settings beh
        { pauseSet := true, cancel := false, skip := false } [] w := by
  intro lines
  induction lines with
  | nil =>
    intro fuel w hf
    obtain ⟨k, rfl⟩ : ∃ k, fuel = k + 1 := ⟨fuel - 1, by omega⟩
    rw [muxMonitor]
    simp [stepSig]
  | cons l rest ih =>
    intro fuel w hf
    obtain ⟨k, rfl⟩ : ∃ k, fuel = k + 1 := ⟨fuel - 1, by omega⟩
    rw [muxMonitor]
    simp only [stepSig]
    simp
    exact ih k w (by simp at hf; omega)

/-- C4: when the mux subprocess exits on its own (no skip, no cancel), the
monitor classifies by exit code — `completed` exactly when it is zero,
`error` otherwise with no cleanup of the already-written output file — and
the worker increments `remuxed` exactly when the classification is
`completed`. -/
theorem c4_exit_code_classification :
    (∀ (command : List String) (out fn sp : String) (settings : Settings) (beh : MuxBeh)
        (w : World) (fuel : Nat),
      beh.spawnOk = true → out ∉ w.disk → beh.outputLines.length < fuel →
      ((execute_ffmpeg_process false fuel command out fn settings sp beh
          { pauseSet := true, cancel := false, skip := false } [] w).result =
            ExecResult.completed ↔ beh.returncode = 0) ∧
      (beh.returncode ≠ 0 →
        (execute_ffmpeg_process false fuel command out fn settings sp beh
          { pauseSet := true, cancel := false, skip := false } [] w).result =
            ExecResult.error ∧
        (execute_ffmpeg_process false fuel command out fn settings sp beh
          { pauseSet := true, cancel := false, skip := false } [] w).world.disk =
          (if beh.writesOutput then w.disk.insert out else w.disk))) ∧
    (∀ (dm : Bool) (fp : String) (settings : Settings) (muxs : List MuxBeh) (st st4 : WState),
      st.sig.skip = false →
      (((fileCtxAt settings st.idx).2.2.1.map (fun r => r.valid)).getD true) = true →
      workerStep2 dm fp settings muxs st = Sum.inr st4 →
      st4.remuxed = st.remuxed +
        (if (workerExec dm fp settings muxs st).result = ExecResult.completed then 1 else 0)) := by
  constructor
  · intro command out fn sp settings beh w fuel hspawn hnew hf
    have hrun : execute_ffmpeg_process false fuel command out fn settings sp beh
        { pauseSet := true, cancel := false, skip := false } [] w =
        muxExitNatural false fn out sp settings beh
          { pauseSet := true, cancel := false, skip := false } []
          (if beh.writesOutput then
            { addEffect (emit w (Event.log s!"Remuxing: {fn}")) (FsEffect.spawn command) with
                spawned := (emit w (Event.log s!"Remuxing: {fn}")).spawned + 1,
                disk := (emit w (Event.log s!"Remuxing: {fn}")).disk.insert out }
           else
            { addEffect (emit w (Event.log s!"Remuxing: {fn}")) (FsEffect.spawn command) with
                spawned := (emit w (Event.log s!"Remuxing: {fn}")).spawned + 1 }) := by
      rw [execute_ffmpeg_process]
      rw [if_neg hnew]
      simp only [hspawn]
      simp only [Bool.true_eq_false, if_false]
      rw [muxMonitor_quiescent fn out sp settings beh beh.outputLines fuel _ hf]
      split
      · rfl
      · rfl
    rw [hrun]
    rw [muxExitNatural]
    simp only [stepSig]
    constructor
    · by_cases hrc : beh.returncode = 0
      · simp [hrc, emit, addEffect]
      · simp [hrc, emit, addEffect]
    · intro hrc
      refine ⟨?_, ?_⟩
      · simp [hrc, emit, addEffect]
      · by_cases hw : beh.writesOutput = true
        · simp [hrc, hw, emit, addEffect]
        · simp [hrc, hw, emit, addEffect]
  · intro dm fp settings muxs st st4 hsk hv h
    simp only [workerStep2] at h
    split at h
    · rename_i hcond
      rw [hsk] at hcond
      exact absurd hcond (by decide)
    · split at h
      · rename_i hcond
        rw [hv] at hcond
        exact absurd hcond (by decide)
      · split at h
        · rename_i heq
          injection h with h
          subst h
          rw [heq]
          simp
        · rename_i heq
          injection h with h
          subst h
          rw [heq]
          simp
        · rename_i heq
          injection h with h
          subst h
          rw [heq]
          simp
        · simp at h

/-- Witness for C4 at a concrete input: a mux run exiting with code 1,
leaving the partial output on disk, and the matching worker step. -/
theorem c4_exit_code_classification_witness :
    (execute_ffmpeg_process false 2 ["cmd"] "/d/x.mp4" "x.mkv"
      { files := ["/d/x.mkv"], output_dir := "", includeSound := false,
        file_action := .keep, use_timescale := false, scan_results := [],
        output_format := ".mp4", preserve_timestamps := false,
        overwrite_existing := false } "/d/x.mkv" { returncode := 1 }
      { pauseSet := true, cancel := false, skip := false } [] {}).result =
        ExecResult.error ∧
    (execute_ffmpeg_process false 2 ["cmd"] "/d/x.mp4" "x.mkv"
      { files := ["/d/x.mkv"], output_dir := "", includeSound := false,
        file_action := .keep, use_timescale := false, scan_results := [],
        output_format := ".mp4", preserve_timestamps := false,
        overwrite_existing := false } "/d/x.mkv" { returncode := 1 }
      { pauseSet := true, cancel := false, skip := false } [] {}).world.disk =
      (if ({ returncode := 1 } : MuxBeh).writesOutput then
        (({} : World)).disk.insert "/d/x.mp4" else (({} : World)).disk) :=
  ((c4_exit_code_classification.1 ["cmd"] "/d/x.mp4" "x.mkv" "/d/x.mkv"
    { files := ["/d/x.mkv"], output_dir := "", includeSound := false,
      file_action := .keep, use_timescale := false, scan_results := [],
      output_format := ".mp4", preserve_timestamps := false,
      overwrite_existing := false } { returncode := 1 } {} 2 rfl (by decide)
    (by decide)).2 (by decide))

/-- Helper: the disposition handler never drops recorded effects. -/
theorem handle_original_file_effects_mono (dm : Bool) (fn op : String) (settings : Settings)
    (w : World) (x : FsEffect) (hx : x ∈ w.effects) :
    x ∈ (handle_original_file dm fn op settings w).effects := by
  unfold handle_original_file
  repeat' split
  all_goals try simp only [emit, addEffect]
  all_goals (repeat' split)
  all_goals first
    | exact hx
    | simp [hx]

/-- Helper: a quiescent, instantly-exiting, successful mux invocation
completes, spawning exactly one process and recording the spawn effect. -/
theorem execute_quiescent_success (fuel : Nat) (command : List String)
    (out fn sp : String) (settings : Settings) (beh : MuxBeh) (w : World)
    (hnew : out ∉ w.disk) (hspawn : beh.spawnOk = true) (hlines : beh.outputLines = [])
    (hrc : beh.returncode = 0) (hf : 0 < fuel) :
    (execute_ffmpeg_process false fuel command out fn settings sp beh
      { pauseSet := true, cancel := false, skip := false } [] w).result =
        ExecResult.completed ∧
    (execute_ffmpeg_process false fuel command out fn settings sp beh
      { pauseSet := true, cancel := false, skip := false } [] w).world.spawned =
        w.spawned + 1 ∧
    FsEffect.spawn command ∈
      (execute_ffmpeg_process false fuel command out fn settings sp beh
        { pauseSet := true, cancel := false, skip := false } [] w).world.effects := by
  rw [execute_ffmpeg_process]
  rw [if_neg hnew]
  simp only [hspawn, Bool.true_eq_false, if_false, hlines]
  rw [muxMonitor_quiescent fn out sp settings beh [] fuel _ (by simpa using hf)]
  rw [muxExitNatural]
  dsimp only [stepSig]
  rw [if_neg (show ¬(false = true) by decide), if_pos hrc]
  refine ⟨?_, ?_, ?_⟩
  · rfl
  · dsimp only
    rw [(handle_original_file_world false fn out settings _).1]
    simp only [preserve_file_timestamps, emit, addEffect]
    repeat' split
    all_goals simp [emit, addEffect]
  · dsimp only
    apply handle_original_file_effects_mono
    simp only [preserve_file_timestamps, emit, addEffect]
    repeat' split
    all_goals simp [emit, addEffect]

/-- C9: an input path with no entry in the descriptor map is treated as valid:
the controller proceeds to construct and execute a mux command for it — the
run spawns exactly one subprocess, records the constructed command's spawn
effect, and completes the file. -/
theorem c9_missing_descriptor_executes (fp f : String) (settings : Settings) (beh : MuxBeh)
    (hfiles : settings.files = [f])
    (hlook : lookupScan settings.scan_results f = none)
    (hspawn : beh.spawnOk = true)
    (hlines : beh.outputLines = [])
    (hrc : beh.returncode = 0) :
    (remux_videos_worker false fp settings [beh]
      { pauseSet := true, cancel := false, skip := false } [] [] 3).world.spawned = 1 ∧
    (remux_videos_worker false fp settings [beh]
      { pauseSet := true, cancel := false, skip := false } [] [] 3).remuxed = 1 ∧
    FsEffect.spawn (build_ffmpeg_command fp f settings).command ∈
      (remux_videos_worker false fp settings [beh]
        { pauseSet := true, cancel := false, skip := false } [] [] 3).world.effects := by
  have htv : settings.files.length = 1 := by rw [hfiles]; rfl
  obtain ⟨e1, e2, e3⟩ := execute_quiescent_success 2
    (build_ffmpeg_command fp f settings).command
    (build_ffmpeg_command fp f settings).outPath (basename f) f settings beh
    (emits (emit
      (emit (emit (emit { disk := ([] : List String) }
        (Event.log s!"Processing file {1}/{1}: {basename f}"))
        (Event.progress 0 1))
        (Event.currentFile (basename f) 0))
      Event.skipButtonReset)
      (build_ffmpeg_command fp f settings).events)
    (by simp [emits, emit]) hspawn hlines hrc (by omega)
  simp only [remux_videos_worker]
  show (workerLoop false fp settings [beh] (2 + 1) _).world.spawned = 1 ∧ _ ∧ _
  rw [workerLoop]
  simp only [htv, stepSig, fileCtxAt, hfiles, hlook]
  simp only [workerStep2, workerExec, fileCtxAt, hfiles, hlook]
  simp only [List.getD, List.get?, Option.getD, Option.map]
  simp [hlook, hlines] at e1 e2 e3 ⊢
  rw [e1]
  simp [workerLoop, finishJob, advanceEventsMain, emit, emits, htv] at e2 e3 ⊢
  exact ⟨by rw [e2], e3⟩

/-- Witness for C9 at a concrete input: one file, an empty descriptor map. -/
theorem c9_missing_descriptor_executes_witness :
    (remux_videos_worker false "ffmpeg"
      { files := ["/d/x.mkv"], output_dir := "", includeSound := false,
        file_action := .keep, use_timescale := false, scan_results := [],
        output_format := ".mp4", preserve_timestamps := false,
        overwrite_existing := false } [{}]
      { pauseSet := true, cancel := false, skip := false } [] [] 3).world.spawned = 1 ∧
    (remux_videos_worker false "ffmpeg"
      { files := ["/d/x.mkv"], output_dir := "", includeSound := false,
        file_action := .keep, use_timescale := false, scan_results := [],
        output_format := ".mp4", preserve_timestamps := false,
        overwrite_existing := false } [{}]
      { pauseSet := true, cancel := false, skip := false } [] [] 3).remuxed = 1 ∧
    FsEffect.spawn (build_ffmpeg_command "ffmpeg" "/d/x.mkv"
      { files := ["/d/x.mkv"], output_dir := "", includeSound := false,
        file_action := .keep, use_timescale := false, scan_results := [],
        output_format := ".mp4", preserve_timestamps := false,
        overwrite_existing := false }).command ∈
      (remux_videos_worker false "ffmpeg"
        { files := ["/d/x.mkv"], output_dir := "", includeSound := false,
          file_action := .keep, use_timescale := false, scan_results := [],
          output_format := ".mp4", preserve_timestamps := false,
          overwrite_existing := false } [{}]
        { pauseSet := true, cancel := false, skip := false } [] [] 3).world.effects :=
  c9_missing_descriptor_executes "ffmpeg" "/d/x.mkv"
    { files := ["/d/x.mkv"], output_dir := "", includeSound := false,
      file_action := .keep, use_timescale := false, scan_results := [],
      output_format := ".mp4", preserve_timestamps := false,
      overwrite_existing := false } {} rfl rfl rfl rfl rfl

/-- C10: under the move policy, an invalid-file skip performs no disposition
at all (no effects, only the skipped counter and index change), while a
pre-start skip, a paused skip, and a mid-run skip serviced by the subprocess
monitor each move the original into the `Remuxed` subfolder of its source
directory.  Each conjunct is a one-file run driven by the matching signal
trace. -/
theorem c10_disposition_on_skips (f : String) (hd : dirname f ≠ "") :
    ((remux_videos_worker false "ffmpeg"
        { files := [f], output_dir := "", includeSound := false, file_action := .move,
          use_timescale := false, scan_results := [(f, { valid := false })],
          output_format := ".mp4", preserve_timestamps := false,
          overwrite_existing := false }
        [{}] { pauseSet := true, cancel := false, skip := false } [] [] 3).world.effects = [] ∧
     (remux_videos_worker false "ffmpeg"
        { files := [f], output_dir := "", includeSound := false, file_action := .move,
          use_timescale := false, scan_results := [(f, { valid := false })],
          output_format := ".mp4", preserve_timestamps := false,
          overwrite_existing := false }
        [{}] { pauseSet := true, cancel := false, skip := false } [] [] 3).skippedCount = 1 ∧
     (remux_videos_worker false "ffmpeg"
        { files := [f], output_dir := "", includeSound := false, file_action := .move,
          use_timescale := false, scan_results := [(f, { valid := false })],
          output_format := ".mp4", preserve_timestamps := false,
          overwrite_existing := false }
        [{}] { pauseSet := true, cancel := false, skip := false } [] [] 3).world.spawned = 0) ∧
    (FsEffect.moveFile (joinPath (dirname f) (basename f))
        (joinPath (joinPath (dirname f) "Remuxed") (basename f)) ∈
      (remux_videos_worker false "ffmpeg"
        { files := [f], output_dir := "", includeSound := false, file_action := .move,
          use_timescale := false, scan_results := [], output_format := ".mp4",
          preserve_timestamps := false, overwrite_existing := false }
        [{}] { pauseSet := true, cancel := false, skip := false }
        [{ pauseSet := true, cancelReq := false, skipReq := true }] [] 3).world.effects ∧
     (remux_videos_worker false "ffmpeg"
        { files := [f], output_dir := "", includeSound := false, file_action := .move,
          use_timescale := false, scan_results := [], output_format := ".mp4",
          preserve_timestamps := false, overwrite_existing := false }
        [{}] { pauseSet := true, cancel := false, skip := false }
        [{ pauseSet := true, cancelReq := false, skipReq := true }] [] 3).world.spawned = 0) ∧
    (FsEffect.moveFile (joinPath (dirname f) (basename f))
        (joinPath (joinPath (dirname f) "Remuxed") (basename f)) ∈
      (remux_videos_worker false "ffmpeg"
        { files := [f], output_dir := "", includeSound := false, file_action := .move,
          use_timescale := false, scan_results := [], output_format := ".mp4",
          preserve_timestamps := false, overwrite_existing := false }
        [{}] { pauseSet := true, cancel := false, skip := false }
        [{ pauseSet := false, cancelReq := false, skipReq := false },
         { pauseSet := false, cancelReq := false, skipReq := true }] [] 4).world.effects ∧
     (remux_videos_worker false "ffmpeg"
        { files := [f], output_dir := "", includeSound := false, file_action := .move,
          use_timescale := false, scan_results := [], output_format := ".mp4",
          preserve_timestamps := false, overwrite_existing := false }
        [{}] { pauseSet := true, cancel := false, skip := false }
        [{ pauseSet := false, cancelReq := false, skipReq := false },
         { pauseSet := false, cancelReq := false, skipReq := true }] [] 4).world.spawned = 0) ∧
    (FsEffect.moveFile (joinPath (dirname f) (basename f))
        (joinPath (joinPath (dirname f) "Remuxed") (basename f)) ∈
      (remux_videos_worker false "ffmpeg"
        { files := [f], output_dir := "", includeSound := false, file_action := .move,
          use_timescale := false, scan_results := [], output_format := ".mp4",
          preserve_timestamps := false, overwrite_existing := false }
        [{}] { pauseSet := true, cancel := false, skip := false }
        [{ pauseSet := true, cancelReq := false, skipReq := false },
         { pauseSet := true, cancelReq := false, skipReq := true }] [] 3).world.effects ∧
     (remux_videos_worker false "ffmpeg"
        { files := [f], output_dir := "", includeSound := false, file_action := .move,
          use_timescale := false, scan_results := [], output_format := ".mp4",
          preserve_timestamps := false, overwrite_existing := false }
        [{}] { pauseSet := true, cancel := false, skip := false }
        [{ pauseSet := true, cancelReq := false, skipReq := false },
         { pauseSet := true, cancelReq := false, skipReq := true }] [] 3).world.spawned = 1) := by
  refine ⟨?_, ?_, ?_, ?_⟩
  · simp only [remux_videos_worker]
    show (workerLoop false "ffmpeg" _ _ (2 + 1) _).world.effects = [] ∧ _ ∧ _
    rw [workerLoop]
    simp [stepSig, fileCtxAt, lookupScan, workerStep2, workerLoop, finishJob,
      advanceEventsPre, advanceEventsMain, emit, emits, workerPauseBlock, workerExec]
  · simp only [remux_videos_worker]
    show _ ∈ (workerLoop false "ffmpeg" _ _ (2 + 1) _).world.effects ∧ _
    rw [workerLoop]
    simp [stepSig, applyEnv, fileCtxAt, lookupScan, workerStep2, workerLoop, finishJob,
      advanceEventsPre, advanceEventsMain, emit, emits, workerPauseBlock, workerExec,
      handle_original_file, List.find?, hd, addEffect]
  · simp only [remux_videos_worker]
    show _ ∈ (workerLoop false "ffmpeg" _ _ (3 + 1) _).world.effects ∧ _
    rw [workerLoop]
    simp [stepSig, applyEnv, fileCtxAt, lookupScan, workerStep2, workerLoop, finishJob,
      advanceEventsPre, advanceEventsMain, emit, emits, workerPauseBlock, workerPausedWait,
      workerExec, handle_original_file, List.find?, hd, addEffect]
  · simp only [remux_videos_worker]
    show _ ∈ (workerLoop false "ffmpeg" _ _ (2 + 1) _).world.effects ∧ _
    rw [workerLoop]
    simp [stepSig, applyEnv, fileCtxAt, lookupScan, workerStep2, workerLoop, finishJob,
      advanceEventsPre, advanceEventsMain, emit, emits, workerPauseBlock, workerPausedWait,
      workerExec, execute_ffmpeg_process, muxMonitor, muxExitSkip, removeIfExists,
      handle_original_file, List.find?, hd, addEffect]

/-- Witness for C10 at a concrete input: the invalid-file skip leaves no
effects, and the pre-start skip moves the original. -/
theorem c10_disposition_on_skips_witness :
    (remux_videos_worker false "ffmpeg"
      { files := ["/d/x.mkv"], output_dir := "", includeSound := false,
        file_action := .move, use_timescale := false,
        scan_results := [("/d/x.mkv", { valid := false })], output_format := ".mp4",
        preserve_timestamps := false, overwrite_existing := false }
      [{}] { pauseSet := true, cancel := false, skip := false } [] [] 3).world.effects = [] ∧
    FsEffect.moveFile (joinPath (dirname "/d/x.mkv") (basename "/d/x.mkv"))
        (joinPath (joinPath (dirname "/d/x.mkv") "Remuxed") (basename "/d/x.mkv")) ∈
      (remux_videos_worker false "ffmpeg"
        { files := ["/d/x.mkv"], output_dir := "", includeSound := false,
          file_action := .move, use_timescale := false, scan_results := [],
          output_format := ".mp4", preserve_timestamps := false,
          overwrite_existing := false }
        [{}] { pauseSet := true, cancel := false, skip := false }
        [{ pauseSet := true, cancelReq := false, skipReq := true }] [] 3).world.effects :=
  ⟨(c10_disposition_on_skips "/d/x.mkv" (by decide)).1.1,
   (c10_disposition_on_skips "/d/x.mkv" (by decide)).2.1.1⟩

/-- Witness for C7 (amended) at a concrete input: probe output `"0/0"`. -/
theorem c7_amended_witness :
    (scan_single_file true false "/d/x.mkv"
      { fps := ProbeOut.ok "0/0", dur := ProbeOut.ok "1", sound := ProbeOut.ok "" }).1.valid
        = true ∧
    (scan_single_file true false "/d/x.mkv"
      { fps := ProbeOut.ok "0/0", dur := ProbeOut.ok "1", sound := ProbeOut.ok "" }).1.fps
        = none :=
  (c7_amended "/d/x.mkv" "0/0"
    { fps := ProbeOut.ok "0/0", dur := ProbeOut.ok "1", sound := ProbeOut.ok "" } false rfl
    (by decide) (by decide)).1 (by decide)

/-- C8: with validation disabled the scanner never marks a file invalid: the
returned descriptor has `valid = true` for every probe outcome, and when the
frame-rate probe times out, raises, or exits nonzero (raising via `check=True`)
the descriptor keeps all its zero/absent defaults and exactly one warning log
is emitted. -/
theorem c8_disabled_validation_always_valid (filePath : String) (pe : ProbeEnv) (snd : Bool) :
    (scan_single_file false snd filePath pe).1.valid = true ∧
    (pe.fps = ProbeOut.timeout →
      (scan_single_file false snd filePath pe).1 = ({} : ScanResult) ∧
      ∃ m, (scan_single_file false snd filePath pe).2 = [Event.log m]) ∧
    (pe.fps = ProbeOut.exn →
      (scan_single_file false snd filePath pe).1 = ({} : ScanResult) ∧
      ∃ m, (scan_single_file false snd filePath pe).2 = [Event.log m]) ∧
    (∀ rc s, pe.fps = ProbeOut.err rc s →
      (scan_single_file false snd filePath pe).1 = ({} : ScanResult) ∧
      ∃ m, (scan_single_file false snd filePath pe).2 = [Event.log m]) := by
  refine ⟨?_, ?_, ?_, ?_⟩
  · rcases hc : scanCore snd (basename filePath) pe with ⟨r, evs, exn⟩
    have hv := scanCore_valid snd (basename filePath) pe
    rw [hc] at hv
    simp only at hv
    simp only [scan_single_file]
    rw [hc]
    cases exn with
    | none => simpa using hv
    | some e => cases e <;> simpa using hv
  · intro hft
    simp only [scan_single_file, scanCore, hft]
    exact ⟨rfl, _, by rw [if_pos trivial, List.nil_append]⟩
  · intro hft
    simp only [scan_single_file, scanCore, hft]
    exact ⟨rfl, _, by rw [if_pos trivial, List.nil_append]⟩
  · intro rc s hft
    simp only [scan_single_file, scanCore, hft]
    exact ⟨rfl, _, by rw [if_pos trivial, List.nil_append]⟩

/-- Witness for C8 at a concrete input: a timed-out frame-rate probe. -/
theorem c8_disabled_validation_always_valid_witness :
    (scan_single_file false false "/d/x.mkv"
      { fps := ProbeOut.timeout, dur := ProbeOut.ok "1", sound := ProbeOut.ok "" }).1.valid
        = true ∧
    (scan_single_file false false "/d/x.mkv"
      { fps := ProbeOut.timeout, dur := ProbeOut.ok "1", sound := ProbeOut.ok "" }).1
        = ({} : ScanResult) :=
  ⟨(c8_disabled_validation_always_valid "/d/x.mkv"
      { fps := ProbeOut.timeout, dur := ProbeOut.ok "1", sound := ProbeOut.ok "" } false).1,
   ((c8_disabled_validation_always_valid "/d/x.mkv"
      { fps := ProbeOut.timeout, dur := ProbeOut.ok "1", sound := ProbeOut.ok "" } false).2.1
      rfl).1⟩

/-- Witness for C5 at a concrete input: a descriptor with fps `"23.976"`. -/
theorem c5_timescale_handling_witness :
    (build_ffmpeg_command "ffmpeg" "/d/x.mkv"
      { files := ["/d/x.mkv"], output_dir := "", includeSound := true, file_action := .keep,
        use_timescale := true, scan_results := [("/d/x.mkv", { fps := some "23.976" })],
        output_format := ".mp4", preserve_timestamps := false,
        overwrite_existing := false }).command =
      ["ffmpeg", "-y", "-i", "/d/x.mkv", "-c:v", "copy", "-map", "0:v", "-map", "0:a",
       "-c:a", "copy"] ++ ["-video_track_timescale", "23.976"] ++ ["/d/x.mp4"] := by
  have h := (c5_timescale_handling "ffmpeg" "/d/x.mkv"
    { files := ["/d/x.mkv"], output_dir := "", includeSound := true, file_action := .keep,
      use_timescale := true, scan_results := [("/d/x.mkv", { fps := some "23.976" })],
      output_format := ".mp4", preserve_timestamps := false,
      overwrite_existing := false } rfl).1 "23.976" (by decide) (by decide) (by decide)
  rw [h.1]
  decide


/-- Helper: deleting an output path if it exists only shrinks the disk,
removes that path, and keeps the spawn counter and the recorded effects. -/
theorem removeIfExists_disk (w : World) (p : String) :
    (∀ q ∈ (removeIfExists w p).disk, q ∈ w.disk) ∧
    p ∉ (removeIfExists w p).disk ∧
    (removeIfExists w p).spawned = w.spawned ∧
    (∀ e ∈ w.effects, e ∈ (removeIfExists w p).effects) := by
  unfold removeIfExists
  split
  · refine ⟨?_, ?_, rfl, ?_⟩
    · intro q hq
      simp only [List.mem_filter] at hq
      exact hq.1
    · simp [List.mem_filter]
    · intro e he
      exact List.mem_cons_of_mem _ he
  · rename_i hmem
    exact ⟨fun q hq => hq, hmem, rfl, fun e he => he⟩

/-- Helper: the monitor's skip exit shrinks the disk and removes the output
path. -/
theorem muxExitSkip_disk (fn out : String) (sig : SigState) (env : List EnvStep) (w : World) :
    (∀ q ∈ (muxExitSkip fn out sig env w).world.disk, q ∈ w.disk) ∧
    out ∉ (muxExitSkip fn out sig env w).world.disk ∧
    (muxExitSkip fn out sig env w).result = ExecResult.skipped := by
  unfold muxExitSkip
  exact ⟨(removeIfExists_disk _ out).1, (removeIfExists_disk _ out).2.1, rfl⟩

/-- Helper: the monitor's cancel exit terminates the process, removes the
output path, shrinks the disk, and spawns nothing. -/
theorem muxExitCancel_disk (out : String) (sig : SigState) (env : List EnvStep) (w : World) :
    (∀ q ∈ (muxExitCancel out sig env w).world.disk, q ∈ w.disk) ∧
    out ∉ (muxExitCancel out sig env w).world.disk ∧
    (muxExitCancel out sig env w).result = ExecResult.cancelled ∧
    FsEffect.terminate ∈ (muxExitCancel out sig env w).world.effects ∧
    (muxExitCancel out sig env w).world.spawned = w.spawned := by
  unfold muxExitCancel
  refine ⟨(removeIfExists_disk _ out).1, (removeIfExists_disk _ out).2.1, rfl, ?_,
    (removeIfExists_disk _ out).2.2.1⟩
  exact (removeIfExists_disk _ out).2.2.2 _ (by simp [addEffect])

/-- Helper: the monitor's pause wait never touches the disk or the spawn
counter. -/
theorem muxPausedWait_world : ∀ (fuel : Nat) (sig : SigState) (env : List EnvStep) (w : World),
    (muxPausedWait fuel sig env w).2.2.2.disk = w.disk ∧
    (muxPausedWait fuel sig env w).2.2.2.spawned = w.spawned := by
  intro fuel
  induction fuel with
  | zero =>
    intro sig env w
    simp [muxPausedWait]
  | succ fuel ih =>
    intro sig env w
    rw [muxPausedWait.eq_def]
    dsimp only
    split
    · split
      · exact ⟨rfl, rfl⟩
      · exact ih _ _ _
    · split
      · exact ⟨rfl, rfl⟩
      · split
        · exact ⟨rfl, rfl⟩
        · exact ⟨rfl, rfl⟩

/-- Helper: the natural-exit handler only shrinks the disk, and on a cancel
re-check it removes the output path. -/
theorem muxExitNatural_disk (dm : Bool) (fn out sp : String) (settings : Settings)
    (beh : MuxBeh) (sig : SigState) (env : List EnvStep) (w : World) :
    (∀ q ∈ (muxExitNatural dm fn out sp settings beh sig env w).world.disk, q ∈ w.disk) ∧
    ((muxExitNatural dm fn out sp settings beh sig env w).result = ExecResult.skipped ∨
     (muxExitNatural dm fn out sp settings beh sig env w).result = ExecResult.cancelled →
      out ∉ (muxExitNatural dm fn out sp settings beh sig env w).world.disk) := by
  unfold muxExitNatural
  rcases hst : stepSig sig env with ⟨s1, e1⟩
  dsimp only
  split
  · exact ⟨(removeIfExists_disk _ out).1, fun _ => (removeIfExists_disk _ out).2.1⟩
  · split
    · constructor
      · intro q hq
        rw [(handle_original_file_world dm fn out settings _).2.2] at hq
        revert hq
        simp only [preserve_file_timestamps, emit, addEffect]
        repeat' split
        all_goals exact fun hq => hq
      · intro hr
        rcases hr with hr | hr <;> simp at hr
    · constructor
      · intro q hq
        exact hq
      · intro hr
        rcases hr with hr | hr <;> simp at hr

/-- Helper: the monitor loop only shrinks the disk, and on a skipped or
cancelled exit the output path is not on disk. -/
theorem muxMonitor_disk (dm : Bool) (fn out sp : String) (settings : Settings) (beh : MuxBeh) :
    ∀ (fuel : Nat) (lines : List String) (sig : SigState) (env : List EnvStep) (w : World)
      (res : ExecOut),
      muxMonitor dm fuel fn out sp settings beh lines sig env w = res →
      (∀ q ∈ res.world.disk, q ∈ w.disk) ∧
      ((res.result = ExecResult.skipped ∨ res.result = ExecResult.cancelled) →
        out ∉ res.world.disk) := by
  intro fuel
  induction fuel with
  | zero =>
    intro lines sig env w res h
    rw [muxMonitor] at h
    subst h
    exact ⟨fun q hq => hq, by rintro (hr | hr) <;> simp at hr⟩
  | succ fuel ih =>
    intro lines sig env w res h
    rw [muxMonitor] at h
    rcases hst : stepSig sig env with ⟨s1, e1⟩
    rw [hst] at h
    dsimp only at h
    split at h
    · subst h
      exact ⟨(muxExitSkip_disk fn out s1 e1 w).1, fun _ => (muxExitSkip_disk fn out s1 e1 w).2.1⟩
    · split at h
      · subst h
        exact ⟨(muxExitCancel_disk out s1 e1 w).1, fun _ => (muxExitCancel_disk out s1 e1 w).2.1⟩
      · split at h
        · split at h
          · rename_i sig2 env2 w2 hpw
            subst h
            have hd : w2.disk = w.disk := by
              have := (muxPausedWait_world fuel s1 e1 w).1
              rw [hpw] at this
              exact this
            refine ⟨?_, fun _ => (muxExitCancel_disk out sig2 env2 w2).2.1⟩
            intro q hq
            rw [← hd]
            exact (muxExitCancel_disk out sig2 env2 w2).1 q hq
          · rename_i sig2 env2 w2 hpw
            subst h
            have hd : w2.disk = w.disk := by
              have := (muxPausedWait_world fuel s1 e1 w).1
              rw [hpw] at this
              exact this
            refine ⟨?_, fun _ => (muxExitSkip_disk fn out sig2 env2 w2).2.1⟩
            intro q hq
            rw [← hd]
            exact (muxExitSkip_disk fn out sig2 env2 w2).1 q hq
          · rename_i sig2 env2 w2 hpw
            have hd : w2.disk = w.disk := by
              have := (muxPausedWait_world fuel s1 e1 w).1
              rw [hpw] at this
              exact this
            obtain ⟨m1, m2⟩ := ih lines sig2 env2 w2 res h
            refine ⟨?_, m2⟩
            intro q hq
            rw [← hd]
            exact m1 q hq
        · split at h
          · obtain ⟨n1, n2⟩ := muxExitNatural_disk dm fn out sp settings beh s1 e1 w
            rw [h] at n1 n2
            exact ⟨n1, n2⟩
          · obtain ⟨m1, m2⟩ := ih _ s1 e1 _ res h
            refine ⟨?_, m2⟩
            intro q hq
            have := m1 q hq
            revert this
            split
            · exact fun x => x
            · exact fun x => x

/-- Helper: a monitor run started on a disk bounded by a base set stays
bounded, and a skipped or cancelled exit stays within the base set itself. -/
theorem muxMonitor_disk_from (dm : Bool) (fn out sp : String) (settings : Settings)
    (beh : MuxBeh) (fuel : Nat) (lines : List String) (sig : SigState) (env : List EnvStep)
    (w2 : World) (res : ExecOut) (base : List String)
    (hsub : ∀ q ∈ w2.disk, q = out ∨ q ∈ base)
    (h : muxMonitor dm fuel fn out sp settings beh lines sig env w2 = res) :
    (∀ q ∈ res.world.disk, q = out ∨ q ∈ base) ∧
    ((res.result = ExecResult.skipped ∨ res.result = ExecResult.cancelled) →
      ∀ q ∈ res.world.disk, q ∈ base) := by
  obtain ⟨m1, m2⟩ := muxMonitor_disk dm fn out sp settings beh fuel lines sig env w2 res h
  refine ⟨fun q hq => hsub q (m1 q hq), fun hr q hq => ?_⟩
  rcases hsub q (m1 q hq) with h1 | h1
  · exact absurd (h1 ▸ hq) (m2 hr)
  · exact h1

/-- Helper: the executor at most adds its own output path to the disk, and on
a skipped or cancelled outcome the disk is bounded by what was there before. -/
theorem execute_disk (dm : Bool) (fuel : Nat) (command : List String) (out fn : String)
    (settings : Settings) (sp : String) (beh : MuxBeh) (sig : SigState) (env : List EnvStep)
    (w : World) (res : ExecOut) :
    execute_ffmpeg_process dm fuel command out fn settings sp beh sig env w = res →
    (∀ q ∈ res.world.disk, q = out ∨ q ∈ w.disk) ∧
    ((res.result = ExecResult.skipped ∨ res.result = ExecResult.cancelled) →
      ∀ q ∈ res.world.disk, q ∈ w.disk) := by
  intro h
  simp only [execute_ffmpeg_process] at h
  split at h
  · -- the output already exists and overwriting is off: skip without running
    subst h
    exact ⟨fun q hq => Or.inr hq, fun _ q hq => hq⟩
  · -- the monitor runs (or Popen fails)
    rename_i w1 hpre
    have hw1 : w1.disk = w.disk := by
      split at hpre
      · split at hpre
        · injection hpre with hpre
          subst hpre
          rfl
        · simp at hpre
      · injection hpre with hpre
        subst hpre
        rfl
    split at h
    · -- Popen raised
      subst h
      refine ⟨fun q hq => Or.inr ?_, by rintro (hr | hr) <;> simp at hr⟩
      have hq2 : q ∈ w1.disk := hq
      rw [hw1] at hq2
      exact hq2
    · refine muxMonitor_disk_from dm fn out sp settings beh fuel beh.outputLines sig env
        _ res w.disk ?_ h
      intro q hq
      revert hq
      split
      · intro hq
        rcases List.mem_insert_iff.mp hq with h1 | h1
        · exact Or.inl h1
        · refine Or.inr ?_
          have hq2 : q ∈ w1.disk := h1
          rw [hw1] at hq2
          exact hq2
      · intro hq
        refine Or.inr ?_
        have hq2 : q ∈ w1.disk := hq
        rw [hw1] at hq2
        exact hq2

/-- Helper: the worker-level mux attempt at most adds the current file's
computed output path to the disk; on skip or cancel it adds nothing. -/
theorem workerExec_disk (dm : Bool) (fp : String) (settings : Settings) (muxs : List MuxBeh)
    (st : WState) :
    (∀ q ∈ (workerExec dm fp settings muxs st).world.disk,
      q = outputPathFor settings (settings.files.getD st.idx "") ∨ q ∈ st.world.disk) ∧
    (((workerExec dm fp settings muxs st).result = ExecResult.skipped ∨
      (workerExec dm fp settings muxs st).result = ExecResult.cancelled) →
      ∀ q ∈ (workerExec dm fp settings muxs st).world.disk, q ∈ st.world.disk) := by
  obtain ⟨e1, e2⟩ := execute_disk dm
    (st.env.length + (muxs.getD st.idx {}).outputLines.length + 2)
    (build_ffmpeg_command fp (settings.files.getD st.idx "") settings).command
    (build_ffmpeg_command fp (settings.files.getD st.idx "") settings).outPath
    (basename (settings.files.getD st.idx "")) settings (settings.files.getD st.idx "")
    (muxs.getD st.idx {}) st.sig st.env
    (emits (emit st.world .skipButtonReset)
      (build_ffmpeg_command fp (settings.files.getD st.idx "") settings).events)
    (workerExec dm fp settings muxs st) rfl
  constructor
  · intro q hq
    rcases e1 q hq with h1 | h1
    · rw [build_outPath] at h1
      exact Or.inl h1
    · exact Or.inr h1
  · intro hr q hq
    exact e2 hr q hq

/-- Helper: the pre-start-skip UI advance does not touch the disk. -/
theorem advanceEventsPre_disk (settings : Settings) (i1 : Nat) (w : World) :
    (advanceEventsPre settings i1 w).disk = w.disk := by
  unfold advanceEventsPre
  dsimp only
  split <;> rfl

/-- Helper: the post-attempt UI advance does not touch the disk. -/
theorem advanceEventsMain_disk (settings : Settings) (i1 : Nat) (w : World) :
    (advanceEventsMain settings i1 w).disk = w.disk := by
  unfold advanceEventsMain
  dsimp only
  split <;> rfl

/-- Helper: the worker pause wait never touches the disk or spawn counter, and
only prepends to the outcome history. -/
theorem workerPausedWait_world (dm : Bool) (settings : Settings) :
    ∀ fuel idx sc sig env w oc res,
      workerPausedWait dm settings fuel idx sc sig env w oc = res →
      res.world.disk = w.disk ∧ res.world.spawned = w.spawned ∧
      (∀ x ∈ oc, x ∈ res.outcomes) := by
  intro fuel
  induction fuel with
  | zero =>
    intro idx sc sig env w oc res h
    simp only [workerPausedWait] at h
    subst h
    exact ⟨rfl, rfl, fun x hx => hx⟩
  | succ fuel ih =>
    intro idx sc sig env w oc res h
    simp only [workerPausedWait] at h
    split at h
    · subst h
      exact ⟨rfl, rfl, fun x hx => hx⟩
    · split at h
      · subst h
        exact ⟨rfl, rfl, fun x hx => hx⟩
      · split at h
        · split at h
          · obtain ⟨d1, d2, d3⟩ := ih _ _ _ _ _ _ _ h
            refine ⟨?_, ?_, fun x hx => d3 x (List.mem_cons_of_mem _ hx)⟩
            · rw [d1]
              simp only [emit]
              split
              · rw [(handle_original_file_world dm _ _ settings _).2.2]
              · rfl
            · rw [d2]
              simp only [emit]
              split
              · rw [(handle_original_file_world dm _ _ settings _).1]
              · rfl
          · subst h
            refine ⟨?_, ?_, fun x hx => List.mem_cons_of_mem _ hx⟩
            · simp only [emit]
              split
              · rw [(handle_original_file_world dm _ _ settings _).2.2]
              · rfl
            · simp only [emit]
              split
              · rw [(handle_original_file_world dm _ _ settings _).1]
              · rfl
        · exact ih _ _ _ _ _ _ _ h


/-- Helper: disk accounting transfers along a step that only shrinks the disk
and extends the outcome history. -/
theorem diskJustified_step (settings : Settings) (d0 : List String) (st st2 : WState)
    (hd : ∀ q ∈ st2.world.disk, q ∈ st.world.disk)
    (ho : ∀ x ∈ st.outcomes, x ∈ st2.outcomes)
    (hj : diskJustified settings d0 st) : diskJustified settings d0 st2 := by
  intro q hq
  rcases hj q (hd q hq) with h | ⟨i, hi, he⟩
  · exact Or.inl h
  · refine Or.inr ⟨i, ?_, he⟩
    rcases hi with hi | hi
    · exact Or.inl (ho _ hi)
    · exact Or.inr (ho _ hi)

/-- Helper: disk accounting transfers along a step that adds at most the
output path of a file newly recorded as completed or errored. -/
theorem diskJustified_newOut (settings : Settings) (d0 : List String) (st st2 : WState)
    (i : Nat)
    (hd : ∀ q ∈ st2.world.disk,
      q = outputPathFor settings (settings.files.getD i "") ∨ q ∈ st.world.disk)
    (ho : ∀ x ∈ st.outcomes, x ∈ st2.outcomes)
    (hnew : (i, Outcome.completed) ∈ st2.outcomes ∨ (i, Outcome.errored) ∈ st2.outcomes)
    (hj : diskJustified settings d0 st) : diskJustified settings d0 st2 := by
  intro q hq
  rcases hd q hq with h | h
  · exact Or.inr ⟨i, hnew, h⟩
  · rcases hj q h with h2 | ⟨j, hj2, he⟩
    · exact Or.inl h2
    · refine Or.inr ⟨j, ?_, he⟩
      rcases hj2 with hj2 | hj2
      · exact Or.inl (ho _ hj2)
      · exact Or.inr (ho _ hj2)

/-- Helper: job termination preserves disk accounting. -/
theorem finishJob_diskJustified (settings : Settings) (d0 : List String) (st : WState)
    (hj : diskJustified settings d0 st) : diskJustified settings d0 (finishJob settings st) :=
  diskJustified_step settings d0 st _
    (fun q hq => by rwa [(finishJob_spec settings st).2.2.2.2.2.2.1] at hq)
    (fun x hx => by rw [(finishJob_spec settings st).2.2.2.2.2.2.2.1]; exact hx) hj

/-- Helper: one pass of the post-pause loop body preserves disk accounting:
only a mux attempt that ends completed or errored can leave a new path on
disk, and it records the matching outcome. -/
theorem workerStep2_diskJustified (dm : Bool) (fp : String) (settings : Settings)
    (muxs : List MuxBeh) (d0 : List String) (st : WState)
    (hj : diskJustified settings d0 st) :
    (∀ st4, workerStep2 dm fp settings muxs st = Sum.inr st4 →
      diskJustified settings d0 st4) ∧
    (∀ final, workerStep2 dm fp settings muxs st = Sum.inl final →
      diskJustified settings d0 final) := by
  constructor
  · intro st4 h
    simp only [workerStep2] at h
    split at h
    · -- pre-start skip
      injection h with h
      subst h
      refine diskJustified_step settings d0 st _ ?_
        (fun x hx => List.mem_cons_of_mem _ hx) hj
      intro q hq
      dsimp only at hq
      rw [advanceEventsPre_disk] at hq
      revert hq
      simp only [emit]
      split
      · rw [(handle_original_file_world dm _ _ settings _).2.2]
        exact fun hq => hq
      · exact fun hq => hq
    · split at h
      · -- invalid file
        injection h with h
        subst h
        exact diskJustified_step settings d0 st _ (fun q hq => hq)
          (fun x hx => List.mem_cons_of_mem _ hx) hj
      · -- the mux attempt ran
        split at h
        · -- error: the output may remain, justified by the errored outcome
          rename_i heq
          injection h with h
          subst h
          refine diskJustified_newOut settings d0 st _ st.idx ?_
            (fun x hx => List.mem_cons_of_mem _ hx)
            (Or.inr (List.mem_cons_self _ _)) hj
          intro q hq
          dsimp only at hq
          rw [advanceEventsMain_disk] at hq
          exact (workerExec_disk dm fp settings muxs st).1 q hq
        · -- completed: the output is justified by the completed outcome
          rename_i heq
          injection h with h
          subst h
          refine diskJustified_newOut settings d0 st _ st.idx ?_
            (fun x hx => List.mem_cons_of_mem _ hx)
            (Or.inl (List.mem_cons_self _ _)) hj
          intro q hq
          dsimp only at hq
          rw [advanceEventsMain_disk] at hq
          exact (workerExec_disk dm fp settings muxs st).1 q hq
        · -- skipped mid-run: the partial output was deleted
          rename_i heq
          injection h with h
          subst h
          refine diskJustified_step settings d0 st _ ?_
            (fun x hx => List.mem_cons_of_mem _ hx) hj
          intro q hq
          dsimp only at hq
          rw [advanceEventsMain_disk] at hq
          revert hq
          simp only [emit]
          split
          · rw [(handle_original_file_world dm _ _ settings _).2.2]
            exact fun hq => (workerExec_disk dm fp settings muxs st).2 (Or.inl heq) q hq
          · exact fun hq => (workerExec_disk dm fp settings muxs st).2 (Or.inl heq) q hq
        · -- cancelled mid-run: the partial output was deleted
          simp at h
  · intro final h
    simp only [workerStep2] at h
    split at h
    · simp at h
    · split at h
      · simp at h
      · split at h
        · simp at h
        · simp at h
        · simp at h
        · rename_i heq
          injection h with h
          subst h
          refine finishJob_diskJustified settings d0 _ ?_
          refine diskJustified_step settings d0 st _ ?_
            (fun x hx => List.mem_cons_of_mem _ hx) hj
          intro q hq
          dsimp only at hq
          exact (workerExec_disk dm fp settings muxs st).2 (Or.inr heq) q hq

/-- Helper: the worker pause block preserves disk accounting on both the
break-out and the continue paths. -/
theorem workerPauseBlock_diskJustified (dm : Bool) (settings : Settings) (fuel : Nat)
    (st : WState) (sig : SigState) (env : List EnvStep) (w : World) (d0 : List String)
    (hw : w.disk = st.world.disk)
    (hj : diskJustified settings d0 st) :
    (∀ final, workerPauseBlock dm settings fuel st sig env w = Sum.inl final →
      diskJustified settings d0 final) ∧
    (∀ st2, workerPauseBlock dm settings fuel st sig env w = Sum.inr st2 →
      diskJustified settings d0 st2) := by
  obtain ⟨d1, d2, d3⟩ := workerPausedWait_world dm settings fuel st.idx st.skippedCount sig
    env w st.outcomes _ rfl
  constructor
  · intro final h
    simp only [workerPauseBlock] at h
    split at h
    · injection h with h
      subst h
      refine finishJob_diskJustified settings d0 _ ?_
      refine diskJustified_step settings d0 st _ ?_ ?_ hj
      · intro q hq
        dsimp only at hq
        rw [d1, hw] at hq
        exact hq
      · intro x hx
        dsimp only
        exact d3 x hx
    · split at h
      · injection h with h
        subst h
        refine finishJob_diskJustified settings d0 _ ?_
        refine diskJustified_step settings d0 st _ ?_ ?_ hj
        · intro q hq
          dsimp only at hq
          rw [d1, hw] at hq
          exact hq
        · intro x hx
          dsimp only
          exact d3 x hx
      · simp at h
  · intro st2 h
    simp only [workerPauseBlock] at h
    split at h
    · simp at h
    · split at h
      · simp at h
      · injection h with h
        subst h
        refine diskJustified_step settings d0 st _ ?_ ?_ hj
        · intro q hq
          dsimp only at hq
          rw [d1, hw] at hq
          exact hq
        · intro x hx
          dsimp only
          exact d3 x hx

/-- Helper: the worker loop preserves disk accounting from any starting
state. -/
theorem workerLoop_diskJustified (dm : Bool) (fp : String) (settings : Settings)
    (muxs : List MuxBeh) (d0 : List String) :
    ∀ fuel st res, workerLoop dm fp settings muxs fuel st = res →
      diskJustified settings d0 st → diskJustified settings d0 res := by
  intro fuel
  induction fuel with
  | zero =>
    intro st res h hj
    simp only [workerLoop] at h
    split at h
    · subst h
      exact finishJob_diskJustified settings d0 st hj
    · subst h
      exact diskJustified_step settings d0 st _ (fun q hq => hq) (fun x hx => hx) hj
  | succ fuel ih =>
    intro st res h hj
    rw [workerLoop] at h
    split at h
    · subst h
      exact finishJob_diskJustified settings d0 st hj
    · simp only at h
      split at h
      · -- cancel observed at the top of the loop
        subst h
        exact finishJob_diskJustified settings d0 _
          (diskJustified_step settings d0 st _ (fun q hq => hq) (fun x hx => hx) hj)
      · -- the match on the pause block outcome
        split at h
        · -- the loop broke out
          subst h
          rename_i final heq
          split at heq
          · refine (workerPauseBlock_diskJustified dm settings fuel st _ _ _ d0 ?_ hj).1
              _ heq
            rfl
          · simp at heq
        · -- the iteration continued with st3
          rename_i st3 heq
          have hj3 : diskJustified settings d0 st3 := by
            split at heq
            · refine (workerPauseBlock_diskJustified dm settings fuel st _ _ _ d0 ?_ hj).2
                _ heq
              rfl
            · injection heq with heq
              subst heq
              exact diskJustified_step settings d0 st _ (fun q hq => hq) (fun x hx => hx) hj
          split at h
          · subst h
            exact (workerStep2_diskJustified dm fp settings muxs d0 st3 hj3).2 _
              (by assumption)
          · rename_i st4 hws
            exact ih st4 res h ((workerStep2_diskJustified dm fp settings muxs d0 st3 hj3).1
              _ hws)


/-- C3 counterexample: a two-file job where the first mux exits with return
code 1 (its fully written output file stays on disk, outcome `errored`) and a
cancel arrives during the second file's mux.  After the cancel is observed the
first file's output `/d/x.mp4` is still on disk even though that file never
reached `completed`, refuting the claim that after a cancel no output file
remains for any file that had not already completed. -/
theorem c3_counterexample :
    (remux_videos_worker false "ffmpeg"
      { files := ["/d/x.mkv", "/d/y.mkv"], output_dir := "", includeSound := false,
        file_action := .keep, use_timescale := false, scan_results := [],
        output_format := ".mp4", preserve_timestamps := false, overwrite_existing := false }
      [{ returncode := 1 }, {}] { pauseSet := true, cancel := false, skip := false }
      [{}, {}, {}, {}, { pauseSet := true, cancelReq := true, skipReq := false }]
      [] 4).cancelObserved = true ∧
    "/d/x.mp4" ∈ (remux_videos_worker false "ffmpeg"
      { files := ["/d/x.mkv", "/d/y.mkv"], output_dir := "", includeSound := false,
        file_action := .keep, use_timescale := false, scan_results := [],
        output_format := ".mp4", preserve_timestamps := false, overwrite_existing := false }
      [{ returncode := 1 }, {}] { pauseSet := true, cancel := false, skip := false }
      [{}, {}, {}, {}, { pauseSet := true, cancelReq := true, skipReq := false }]
      [] 4).world.disk ∧
    "/d/x.mp4" = outputPathFor
      { files := ["/d/x.mkv", "/d/y.mkv"], output_dir := "", includeSound := false,
        file_action := .keep, use_timescale := false, scan_results := [],
        output_format := ".mp4", preserve_timestamps := false, overwrite_existing := false }
      "/d/x.mkv" ∧
    (0, Outcome.completed) ∉ (remux_videos_worker false "ffmpeg"
      { files := ["/d/x.mkv", "/d/y.mkv"], output_dir := "", includeSound := false,
        file_action := .keep, use_timescale := false, scan_results := [],
        output_format := ".mp4", preserve_timestamps := false, overwrite_existing := false }
      [{ returncode := 1 }, {}] { pauseSet := true, cancel := false, skip := false }
      [{}, {}, {}, {}, { pauseSet := true, cancelReq := true, skipReq := false }]
      [] 4).outcomes ∧
    (0, Outcome.errored) ∈ (remux_videos_worker false "ffmpeg"
      { files := ["/d/x.mkv", "/d/y.mkv"], output_dir := "", includeSound := false,
        file_action := .keep, use_timescale := false, scan_results := [],
        output_format := ".mp4", preserve_timestamps := false, overwrite_existing := false }
      [{ returncode := 1 }, {}] { pauseSet := true, cancel := false, skip := false }
      [{}, {}, {}, {}, { pauseSet := true, cancelReq := true, skipReq := false }]
      [] 4).outcomes := by
  refine ⟨by decide, by decide, by decide, by decide, by decide⟩

/-- C3 (amended): cancellation is sticky and cleans up the cancelled file, but
not outputs of files that errored.  (1) A cancel pending at the top of the
worker loop ends the job at once: no further spawn, the disk untouched, the
cancel recorded.  (2) A cancel seen by the monitor (with no skip pending) ends
the mux as `cancelled`, terminates the process, and deletes the partial output
of the current file.  (3) Globally, every output path on disk at the end of a
job either predates the job or belongs to a file whose mux ran to a natural
exit — `completed` or `errored`; an errored mux may leave its output behind. -/
theorem c3_amended :
    (∀ (dm : Bool) (fp : String) (settings : Settings) (muxs : List MuxBeh) (fuel : Nat)
        (st : WState),
      st.idx < settings.files.length →
      (stepSig st.sig st.env).1.cancel = true →
      (workerLoop dm fp settings muxs (fuel + 1) st).world.spawned = st.world.spawned ∧
      (workerLoop dm fp settings muxs (fuel + 1) st).cancelObserved = true ∧
      (workerLoop dm fp settings muxs (fuel + 1) st).world.disk = st.world.disk) ∧
    (∀ (dm : Bool) (fuel : Nat) (fn out sp : String) (settings : Settings) (beh : MuxBeh)
        (lines : List String) (sig : SigState) (env : List EnvStep) (w : World),
      (stepSig sig env).1.cancel = true →
      (stepSig sig env).1.skip = false →
      (muxMonitor dm (fuel + 1) fn out sp settings beh lines sig env w).result
        = ExecResult.cancelled ∧
      out ∉ (muxMonitor dm (fuel + 1) fn out sp settings beh lines sig env w).world.disk ∧
      FsEffect.terminate ∈
        (muxMonitor dm (fuel + 1) fn out sp settings beh lines sig env w).world.effects ∧
      (muxMonitor dm (fuel + 1) fn out sp settings beh lines sig env w).world.spawned
        = w.spawned) ∧
    (∀ (dm : Bool) (fp : String) (settings : Settings) (muxs : List MuxBeh) (sig0 : SigState)
        (env : List EnvStep) (initDisk : List String) (fuel : Nat),
      diskJustified settings initDisk
        (remux_videos_worker dm fp settings muxs sig0 env initDisk fuel)) := by
  refine ⟨?_, ?_, ?_⟩
  · intro dm fp settings muxs fuel st hlt hc
    rw [workerLoop]
    rw [if_neg (by omega)]
    rcases hst : stepSig st.sig st.env with ⟨s1, e1⟩
    have hc2 : s1.cancel = true := by rw [hst] at hc; exact hc
    dsimp only
    rw [if_pos hc2]
    simp [finishJob, emit]
  · intro dm fuel fn out sp settings beh lines sig env w hc hsk
    rw [muxMonitor]
    rcases hst : stepSig sig env with ⟨s1, e1⟩
    have hc2 : s1.cancel = true := by rw [hst] at hc; exact hc
    have hsk2 : s1.skip = false := by rw [hst] at hsk; exact hsk
    dsimp only
    rw [if_neg (by simp [hsk2]), if_pos hc2]
    exact ⟨(muxExitCancel_disk out s1 e1 w).2.2.1, (muxExitCancel_disk out s1 e1 w).2.1,
      (muxExitCancel_disk out s1 e1 w).2.2.2.1, (muxExitCancel_disk out s1 e1 w).2.2.2.2⟩
  · intro dm fp settings muxs sig0 env initDisk fuel
    refine workerLoop_diskJustified dm fp settings muxs initDisk fuel _ _ rfl ?_
    intro q hq
    exact Or.inl hq

/-- Witness for the amended C3 at concrete inputs: a pending cancel at the top
of the loop, a cancel seen by the monitor, and the disk accounting of a
completed one-file run. -/
theorem c3_amended_witness :
    (workerLoop false "ffmpeg"
      { files := ["/d/x.mkv"], output_dir := "", includeSound := false,
        file_action := .keep, use_timescale := false, scan_results := [],
        output_format := ".mp4", preserve_timestamps := false, overwrite_existing := false }
      [{}] (0 + 1)
      { idx := 0, remuxed := 0, skippedCount := 0, errorCount := 0,
        sig := { pauseSet := true, cancel := true, skip := false }, env := [],
        world := {}, cancelObserved := false, outcomes := [] }).cancelObserved = true ∧
    (muxMonitor false (0 + 1) "x.mkv" "/d/x.mp4" "/d/x.mkv"
      { files := ["/d/x.mkv"], output_dir := "", includeSound := false,
        file_action := .keep, use_timescale := false, scan_results := [],
        output_format := ".mp4", preserve_timestamps := false, overwrite_existing := false }
      {} [] { pauseSet := true, cancel := true, skip := false } [] {}).result
      = ExecResult.cancelled ∧
    diskJustified
      { files := ["/d/x.mkv"], output_dir := "", includeSound := false,
        file_action := .keep, use_timescale := false, scan_results := [],
        output_format := ".mp4", preserve_timestamps := false, overwrite_existing := false }
      []
      (remux_videos_worker false "ffmpeg"
        { files := ["/d/x.mkv"], output_dir := "", includeSound := false,
          file_action := .keep, use_timescale := false, scan_results := [],
          output_format := ".mp4", preserve_timestamps := false, overwrite_existing := false }
        [{}] {} [] [] 3) := by
  refine ⟨?_, ?_, ?_⟩
  · exact (c3_amended.1 false "ffmpeg"
      { files := ["/d/x.mkv"], output_dir := "", includeSound := false,
        file_action := .keep, use_timescale := false, scan_results := [],
        output_format := ".mp4", preserve_timestamps := false, overwrite_existing := false }
      [{}] 0
      { idx := 0, remuxed := 0, skippedCount := 0, errorCount := 0,
        sig := { pauseSet := true, cancel := true, skip := false }, env := [],
        world := {}, cancelObserved := false, outcomes := [] }
      (by decide) (by decide)).2.1
  · exact (c3_amended.2.1 false 0 "x.mkv" "/d/x.mp4" "/d/x.mkv"
      { files := ["/d/x.mkv"], output_dir := "", includeSound := false,
        file_action := .keep, use_timescale := false, scan_results := [],
        output_format := ".mp4", preserve_timestamps := false, overwrite_existing := false }
      {} [] { pauseSet := true, cancel := true, skip := false } [] {}
      (by decide) (by decide)).1
  · exact c3_amended.2.2 false "ffmpeg"
      { files := ["/d/x.mkv"], output_dir := "", includeSound := false,
        file_action := .keep, use_timescale := false, scan_results := [],
        output_format := ".mp4", preserve_timestamps := false, overwrite_existing := false }
      [{}] {} [] [] 3

end SmartRemux
